import Mathlib

/-!
Verification of the MineExtractor v6 extraction pipeline
(`mine_extractor_refactored`): a shallow embedding in Lean 4 of the unit
converter (`utils/unit_converter.py`), the chunk processor, result combiner,
field normalizer and processing orchestrator (`processors/data_transformer.py`),
together with theorems settling the frozen claims about them.

Python strings are modelled as `List Char`, Python floats as `ℚ` (the inputs
reaching numeric code in these claims involve no rounding that differs between
the two), Python dicts as insertion-ordered association lists, and exceptions
as `Option`/`Except` flow.  Regexes are modelled by a small fuel-based
backtracking engine (`RE`, `reRunFuel`) whose fuel bounds star iterations by
the input length; every pattern of the source is transliterated into an `RE`
value next to the function that uses it.
-/

namespace ME

abbrev Str := List Char

/-- The whitespace set of Python `str.strip` / regex `\s`, restricted to its
ASCII part (space, tab, newline, carriage return, vertical tab, form feed). -/
def isPySpace (c : Char) : Bool :=
  c = ' ' || c = '\t' || c = '\n' || c = '\r' || c = Char.ofNat 11 || c = Char.ofNat 12

/-- Python `str.strip()`: drop whitespace from both ends. -/
def pyStrip (s : Str) : Str :=
  ((s.dropWhile isPySpace).reverse.dropWhile isPySpace).reverse

/-- Word characters of regex `\b` (ASCII part of Python `\w`). -/
def isWordChar (c : Char) : Bool := c.isAlphanum || c = '_'

/-- Python substring test `needle in haystack`. -/
def isSubL (p : Str) : Str → Bool
  | [] => p.isEmpty
  | c :: rest => p.isPrefixOf (c :: rest) || isSubL p rest

def lowerL (s : Str) : Str := s.map Char.toLower

def upperL (s : Str) : Str := s.map Char.toUpper

/-- Python `s.replace(',', '.')`. -/
def commaToDot (s : Str) : Str := s.map (fun c => if c = ',' then '.' else c)

/-- Python `s.replace(' ', '')` (ASCII space only, as in the source). -/
def dropSpaces (s : Str) : Str := s.filter (fun c => c ≠ ' ')

def parseNatDigits (s : Str) : Nat := s.foldl (fun a c => a * 10 + (c.toNat - 48)) 0

/-- Python `int(s)` on a string of decimal digits: `none` when `s` is not
entirely digits (the `ValueError` path). -/
def parsePyNat (s : Str) : Option Nat :=
  if s ≠ [] ∧ s.all Char.isDigit then some (parseNatDigits s) else none

/-- Python `float(s)` for the simple decimal strings the embedded regexes can
produce (optional sign, digits, optional fraction; no exponent, since no
regex group here can contain `e`).  `none` models the `ValueError` path,
in particular for strings with interior spaces. -/
def parsePyFloat (s0 : Str) : Option ℚ :=
  let s := pyStrip s0
  let sgn : ℚ × Str :=
    match s with
    | '-' :: r => (-1, r)
    | '+' :: r => (1, r)
    | _ => (1, s)
  let ip := sgn.2.takeWhile Char.isDigit
  let r1 := sgn.2.dropWhile Char.isDigit
  match r1 with
  | [] => if ip = [] then none else some (sgn.1 * parseNatDigits ip)
  | '.' :: r2 =>
    let fp := r2.takeWhile Char.isDigit
    let r3 := r2.dropWhile Char.isDigit
    if r3 = [] ∧ (ip ≠ [] ∨ fp ≠ []) then
      some (sgn.1 * ((parseNatDigits ip : ℚ) + (parseNatDigits fp : ℚ) / (10 : ℚ) ^ fp.length))
    else none
  | _ => none

def padZeros (d : Nat) (s : Str) : Str := List.replicate (d - s.length) '0' ++ s

/-- Python fixed-point formatting `f"{q:.d f}"`, with ties rounded to even
(display only: no claim depends on a tie). -/
def formatFixed (d : Nat) (q : ℚ) : Str :=
  let scaled := q * (10 : ℚ) ^ d
  let fl : Int := Rat.floor scaled
  let frac := scaled - (fl : ℚ)
  let n : Int :=
    if frac > 1 / 2 then fl + 1
    else if frac < 1 / 2 then fl
    else if fl % 2 = 0 then fl else fl + 1
  let a := n.natAbs
  let ip := a / 10 ^ d
  let fp := a % 10 ^ d
  (if n < 0 then ['-'] else []) ++ (toString ip).toList ++ ['.'] ++ padZeros d (toString fp).toList

/-- Python `str(float)` approximated by the shortest exact decimal rendering
(display only). -/
def floatRepr (q : ℚ) : Str :=
  let d := ((List.range 18).find? (fun d => 1 ≤ d ∧ (q * (10 : ℚ) ^ d).den = 1)).getD 6
  formatFixed d q

/-! ### A fuel-based backtracking regex engine

`RE` is an AST for the regexes of the source; `reStep` interprets one layer
structurally (greedy quantifiers, leftmost-biased alternation, full CPS
backtracking), delegating each star iteration to the `self` handle with one
unit of fuel consumed and strict progress required, so `reRunFuel` with fuel
`input length + 1` is total, structural, and kernel-reducible. -/

inductive RE : Type where
  | eps : RE
  | cls : (Char → Bool) → RE
  | seq : RE → RE → RE
  | alt : RE → RE → RE
  | star : RE → RE
  | opt : RE → RE
  | grp : Nat → RE → RE
  | bnd : RE

abbrev Groups := List (Nat × Str)

/-- Captured text of group `n`: the most recent capture wins. -/
def gget (g : Groups) (n : Nat) : Option Str := (g.find? (fun p => p.1 = n)).map Prod.snd

abbrev MRes := Groups × Str

abbrev ReCont := Option Char → Str → Groups → Option MRes

def isWordOpt : Option Char → Bool
  | some c => isWordChar c
  | none => false

/-- Regex `\b`: word-ness differs between the previous character and the next. -/
def wordBoundary (p : Option Char) (s : Str) : Bool := isWordOpt p != isWordOpt s.head?

def reStep (self : RE → Option Char → Str → Groups → ReCont → Option MRes) :
    RE → Option Char → Str → Groups → ReCont → Option MRes
  | .eps, p, s, g, k => k p s g
  | .cls f, _, s, g, k =>
    match s with
    | [] => none
    | c :: cs => if f c then k (some c) cs g else none
  | .seq a b, p, s, g, k =>
    reStep self a p s g (fun p2 s2 g2 => reStep self b p2 s2 g2 k)
  | .alt a b, p, s, g, k =>
    match reStep self a p s g k with
    | some r => some r
    | none => reStep self b p s g k
  | .opt a, p, s, g, k =>
    match reStep self a p s g k with
    | some r => some r
    | none => k p s g
  | .star a, p, s, g, k =>
    match reStep self a p s g (fun p2 s2 g2 =>
        if s2.length < s.length then self (.star a) p2 s2 g2 k else none) with
    | some r => some r
    | none => k p s g
  | .grp n a, p, s, g, k =>
    reStep self a p s g (fun p2 s2 g2 =>
      k p2 s2 ((n, s.take (s.length - s2.length)) :: g2))
  | .bnd, p, s, g, k => if wordBoundary p s then k p s g else none

def reRunFuel : Nat → RE → Option Char → Str → Groups → ReCont → Option MRes
  | 0, _, _, _, _, _ => none
  | fuel + 1, r, p, s, g, k => reStep (reRunFuel fuel) r p s g k

/-- Anchored match attempt at the current position: `(groups, rest)` on success. -/
def reMatch (r : RE) (p : Option Char) (s : Str) : Option MRes :=
  reRunFuel (s.length + 1) r p s [] (fun _ s2 g2 => some (g2, s2))

/-- One found match: start index, matched text, groups, rest of the input. -/
structure Found where
  start : Nat
  matched : Str
  groups : Groups
  rest : Str
deriving Repr

/-- Python `re.search` from a given position, tracking the previous character
for `\b`. -/
def searchFrom (r : RE) : Option Char → Str → Nat → Option Found
  | p, s, pos =>
    match reMatch r p s with
    | some (g, rest) => some ⟨pos, s.take (s.length - rest.length), g, rest⟩
    | none =>
      match s with
      | [] => none
      | c :: cs => searchFrom r (some c) cs (pos + 1)

def research (r : RE) (s : Str) : Option Found := searchFrom r none s 0

/-- Python `re.finditer`: non-overlapping matches, left to right.  The fuel is
the input length; every pattern used with it matches at least one character,
so the fuel never runs out on a real input. -/
def finditerGo (r : RE) : Nat → Option Char → Str → Nat → List Found
  | 0, _, _, _ => []
  | fuel + 1, p, s, pos =>
    match searchFrom r p s pos with
    | none => []
    | some f =>
      if f.matched = [] then [f]
      else f :: finditerGo r fuel f.matched.getLast? f.rest (f.start + f.matched.length)

def finditer (r : RE) (s : Str) : List Found := finditerGo r (s.length + 1) none s 0

/-! Regex construction helpers. -/

def rchar (c : Char) : RE := .cls (fun x => x = c)

/-- A literal character under `re.IGNORECASE`. -/
def rchari (c : Char) : RE := .cls (fun x => x.toLower = c.toLower)

def rcls (cs : Str) : RE := .cls (fun x => cs.contains x)

def rdigit : RE := .cls Char.isDigit

def rws : RE := .cls isPySpace

def rplus (r : RE) : RE := .seq r (.star r)

def rstr (s : String) : RE := s.toList.foldr (fun c acc => .seq (rchar c) acc) .eps

def rstri (s : String) : RE := s.toList.foldr (fun c acc => .seq (rchari c) acc) .eps

def rep3 (r : RE) : RE := .seq r (.seq r r)

def rep6 (r : RE) : RE := .seq (rep3 r) (rep3 r)

def rep7 (r : RE) : RE := .seq r (rep6 r)

/-! ### `utils/unit_converter.py` -/

/-- `ConversionResult` (unit_converter.py lines 14-25).  `value` is typed
`Optional[float]` in the source but `normalize_coordinates` assigns a string
to it, so its payload is a sum. -/
inductive PyVal : Type where
  | num : ℚ → PyVal
  | str : Str → PyVal
deriving DecidableEq, Repr

structure ConversionResult where
  value : Option PyVal := none
  unit : Str := []
  original_text : Str := []
  confidence : ℚ := 0
  error_message : Str := []
deriving DecidableEq, Repr

/-- `ConversionResult.is_valid`: value present, unit truthy, no error. -/
def ConversionResult.is_valid (r : ConversionResult) : Bool :=
  r.value.isSome && !r.unit.isEmpty && r.error_message.isEmpty

/-- `UnitConverter.production_units` (lines 35-77), in the dict insertion
order of the source. -/
def production_units : List (Str × ℚ) :=
  [ (("t/j").toList, 1), (("t/jahr").toList, 1), (("t/a").toList, 1), (("t/year").toList, 1),
    (("tonnes/j").toList, 1), (("tonnes/jahr").toList, 1), (("tonnes/a").toList, 1),
    (("tonnes/year").toList, 1),
    (("mt/j").toList, 1000000), (("mt/jahr").toList, 1000000), (("mt/a").toList, 1000000),
    (("mt/year").toList, 1000000),
    (("million tonnes/j").toList, 1000000), (("million tonnes/jahr").toList, 1000000),
    (("million tonnes/a").toList, 1000000), (("million tonnes/year").toList, 1000000),
    (("oz/j").toList, 31.1035), (("oz/jahr").toList, 31.1035), (("oz/a").toList, 31.1035),
    (("oz/year").toList, 31.1035),
    (("ounces/j").toList, 31.1035), (("ounces/jahr").toList, 31.1035),
    (("ounces/a").toList, 31.1035), (("ounces/year").toList, 31.1035),
    (("kg/j").toList, 0.001), (("kg/jahr").toList, 0.001), (("kg/a").toList, 0.001),
    (("kg/year").toList, 0.001),
    (("g/j").toList, 0.000001), (("g/jahr").toList, 0.000001), (("g/a").toList, 0.000001),
    (("g/year").toList, 0.000001) ]

/-- `UnitConverter.area_units` (lines 80-104). -/
def area_units : List (Str × ℚ) :=
  [ (("km²").toList, 1), (("km2").toList, 1), (("qkm").toList, 1), (("sq km").toList, 1),
    (("square km").toList, 1),
    (("ha").toList, 0.01), (("hectares").toList, 0.01), (("hectare").toList, 0.01),
    (("m²").toList, 0.000001), (("m2").toList, 0.000001), (("sq m").toList, 0.000001),
    (("square m").toList, 0.000001),
    (("ft²").toList, 0.000000092903), (("ft2").toList, 0.000000092903),
    (("sq ft").toList, 0.000000092903), (("square ft").toList, 0.000000092903) ]

/-- `UnitConverter.unit_conversion_factors` (lines 107-110). -/
def unit_conversion_factors : List (Str × ℚ) := [(("km²").toList, 1), (("ha").toList, 100)]

/-- The factor search of `normalize_production_rate` (lines 159-163): the
first table entry whose token is a substring of the matched unit. -/
def findProductionFactor (unit : Str) : Option ℚ :=
  (production_units.find? (fun pr => isSubL (lowerL pr.1) unit)).map Prod.snd

def findAreaFactor (unit : Str) : Option ℚ :=
  (area_units.find? (fun pr => isSubL (lowerL pr.1) unit)).map Prod.snd

/-- Regex `(\d+(?:[.,]\d+)?)` . -/
def numRE : RE := .seq (rplus rdigit) (.opt (.seq (rcls ([',', '.'])) (rplus rdigit)))

/-- Character class `[a-zA-Z²]`. -/
def unitChar : RE := .cls (fun c => c.isAlpha || c = '²')

/-- Regex `([a-zA-Z²]+/[a-zA-Z]+)` body. -/
def unitRE : RE := .seq (rplus unitChar) (.seq (rchar '/') (rplus (.cls Char.isAlpha)))

/-- Regex `(?:\s\d{3})*` . -/
def thousandsRE : RE := .star (.seq rws (rep3 rdigit))

/-- Regex `(\d+(?:\s\d{3})*(?:[.,]\d+)?)` body. -/
def numThousRE : RE :=
  .seq (rplus rdigit) (.seq thousandsRE (.opt (.seq (rcls ([',', '.'])) (rplus rdigit))))

/-- Production pattern 1: `(\d+(?:[.,]\d+)?)\s*([a-zA-Z²]+/[a-zA-Z]+)`. -/
def prodPat1 : RE := .seq (.grp 1 numRE) (.seq (.star rws) (.grp 2 unitRE))

/-- Production pattern 2: `([><~≈])\s*(\d+(?:[.,]\d+)?)\s*([a-zA-Z²]+/[a-zA-Z]+)`. -/
def prodPat2 : RE :=
  .seq (.grp 1 (rcls (['>', '<', '~', '≈'])))
    (.seq (.star rws) (.seq (.grp 2 numRE) (.seq (.star rws) (.grp 3 unitRE))))

/-- Production pattern 3: `(\d+(?:\s\d{3})*(?:[.,]\d+)?)\s*([a-zA-Z²]+/[a-zA-Z]+)`. -/
def prodPat3 : RE := .seq (.grp 1 numThousRE) (.seq (.star rws) (.grp 2 unitRE))

/-- One candidate match of the production-rate scan: the prefix (empty for
patterns 1 and 3), the parsed value, and the lowercased unit text. -/
structure ProdCand where
  pre : Str
  value : ℚ
  unitL : Str
deriving Repr

/-- Matches of patterns 1-3 in order, dropping those whose value string fails
`float()` (the `except ValueError: continue` path). -/
def prodCandidates (text : Str) : List ProdCand :=
  ((finditer prodPat1 text).filterMap (fun f =>
      match gget f.groups 1, gget f.groups 2 with
      | some vs, some us =>
        (parsePyFloat (commaToDot vs)).map (fun v => ⟨[], v, lowerL us⟩)
      | _, _ => none)) ++
  ((finditer prodPat2 text).filterMap (fun f =>
      match gget f.groups 1, gget f.groups 2, gget f.groups 3 with
      | some pre, some vs, some us =>
        (parsePyFloat (commaToDot vs)).map (fun v => ⟨pre, v, lowerL us⟩)
      | _, _, _ => none)) ++
  ((finditer prodPat3 text).filterMap (fun f =>
      match gget f.groups 1, gget f.groups 2 with
      | some vs, some us =>
        (parsePyFloat (commaToDot vs)).map (fun v => ⟨[], v, lowerL us⟩)
      | _, _ => none))

/-- The `best_match` record of `normalize_production_rate`. -/
structure ProdBest where
  normValue : ℚ
  pre : Str
  origValue : ℚ
  origUnit : Str
deriving Repr

/-- One step of the best-confidence scan (lines 158-184): skip units with no
factor; base confidence 0.8, reduced by 0.9 for a comparison prefix; a
candidate replaces the best only when strictly more confident. -/
def prodBestStep (acc : ℚ × Option ProdBest) (c : ProdCand) : ℚ × Option ProdBest :=
  match findProductionFactor c.unitL with
  | none => acc
  | some factor =>
    let conf : ℚ := if [(">").toList, ("<").toList, ("~").toList, ("≈").toList].contains c.pre
      then 0.8 * 0.9 else 0.8
    if conf > acc.1 then (conf, some ⟨c.value * factor, c.pre, c.value, c.unitL⟩) else acc

/-- The formatted `original_text` of a successful production conversion
(lines 195-199). -/
def prodFormat (b : ProdBest) : Str :=
  b.pre ++ formatFixed 1 b.origValue ++ (" ").toList ++ b.origUnit ++
    (" → ").toList ++ formatFixed 1 b.normValue ++ (" t/Jahr").toList

/-- `UnitConverter.normalize_production_rate` (lines 112-203). -/
def normalize_production_rate (text : Str) : ConversionResult :=
  if text.isEmpty || (pyStrip text).isEmpty then
    { error_message := ("Leerer Text").toList }
  else
    match (prodCandidates text).foldl prodBestStep (0, none) with
    | (conf, some b) =>
      { value := some (.num b.normValue), unit := ("t/Jahr").toList,
        original_text := prodFormat b, confidence := conf }
    | (_, none) =>
      { original_text := text,
        error_message := ("Keine gültige Fördermenge gefunden").toList }

/-- Area pattern 1: `(\d+(?:[.,]\d+)?)\s*([a-zA-Z²]+)`. -/
def areaPat1 : RE := .seq (.grp 1 numRE) (.seq (.star rws) (.grp 2 (rplus unitChar)))

/-- Area patterns 2 and 3 (identical in the source):
`(\d+(?:\s\d{3})*(?:[.,]\d+)?)\s*([a-zA-Z²]+)`. -/
def areaPat2 : RE := .seq (.grp 1 numThousRE) (.seq (.star rws) (.grp 2 (rplus unitChar)))

structure AreaCand where
  value : ℚ
  unitL : Str
deriving Repr

/-- Candidates of the area scan; the value string has commas dotted and
spaces removed before `float()` (line 235). -/
def areaCandidates (text : Str) : List AreaCand :=
  let fromPat := fun (p : RE) =>
    (finditer p text).filterMap (fun f =>
      match gget f.groups 1, gget f.groups 2 with
      | some vs, some us =>
        (parsePyFloat (dropSpaces (commaToDot vs))).map (fun v => (⟨v, lowerL us⟩ : AreaCand))
      | _, _ => none)
  fromPat areaPat1 ++ fromPat areaPat2 ++ fromPat areaPat2

structure AreaBest where
  normValue : ℚ
  origValue : ℚ
  origUnit : Str
deriving Repr

/-- Best-confidence scan of `normalize_area` (lines 241-268): factor lookup,
always-km² intermediate, target factor, constant confidence 0.9. -/
def areaBestStep (target_unit : Str) (acc : ℚ × Option AreaBest) (c : AreaCand) :
    ℚ × Option AreaBest :=
  match findAreaFactor c.unitL with
  | none => acc
  | some factor =>
    let km2 := c.value * factor
    let tf := ((unit_conversion_factors.find? (fun pr => pr.1 = target_unit)).map Prod.snd).getD 1
    let conf : ℚ := 0.9
    if conf > acc.1 then (conf, some ⟨km2 * tf, c.value, c.unitL⟩) else acc

/-- `UnitConverter.normalize_area` (lines 205-282). -/
def normalize_area (text : Str) (target_unit : Str := ("km²").toList) : ConversionResult :=
  if text.isEmpty || (pyStrip text).isEmpty then
    { error_message := ("Leerer Text").toList }
  else
    match (areaCandidates text).foldl (areaBestStep target_unit) (0, none) with
    | (conf, some b) =>
      { value := some (.num b.normValue), unit := target_unit,
        original_text := formatFixed 1 b.origValue ++ (" ").toList ++ b.origUnit ++
          (" → ").toList ++ formatFixed 4 b.normValue ++ (" ").toList ++ target_unit,
        confidence := conf }
    | (_, none) =>
      { original_text := text,
        error_message := ("Keine gültige Flächenangabe gefunden").toList }

/-- Mixed pattern `(\d{6})\s*;\s*([+-]?\d+(?:\.\d+)?)` (line 301). -/
def mixedPat : RE :=
  .seq (.grp 1 (rep6 rdigit))
    (.seq (.star rws) (.seq (rchar ';') (.seq (.star rws)
      (.grp 2 (.seq (.opt (rcls (['+', '-'])))
        (.seq (rplus rdigit) (.opt (.seq (rchar '.') (rplus rdigit)))))))))

/-- Regex `(\d+(?:\s\d{3})*)` body. -/
def spacedNumRE : RE := .seq (rplus rdigit) thousandsRE

/-- UTM pattern 1: `UTM\s*E\s*=\s*(\d+(?:\s\d{3})*)\s*/\s*N\s*=\s*(\d+(?:\s\d{3})*)`
(IGNORECASE). -/
def utmPat1 : RE :=
  .seq (rstri "UTM") (.seq (.star rws) (.seq (rchari 'E') (.seq (.star rws)
    (.seq (rchar '=') (.seq (.star rws) (.seq (.grp 1 spacedNumRE) (.seq (.star rws)
      (.seq (rchar '/') (.seq (.star rws) (.seq (rchari 'N') (.seq (.star rws)
        (.seq (rchar '=') (.seq (.star rws) (.grp 2 spacedNumRE))))))))))))))

/-- UTM pattern 2: `(\d{6})\s*;\s*(\d{7})`. -/
def utmPat2 : RE :=
  .seq (.grp 1 (rep6 rdigit))
    (.seq (.star rws) (.seq (rchar ';') (.seq (.star rws) (.grp 2 (rep7 rdigit)))))

/-- UTM pattern 3: `E\s*(\d+(?:\s\d{3})*)\s*N\s*(\d+(?:\s\d{3})*)` (IGNORECASE). -/
def utmPat3 : RE :=
  .seq (rchari 'E') (.seq (.star rws) (.seq (.grp 1 spacedNumRE)
    (.seq (.star rws) (.seq (rchari 'N') (.seq (.star rws) (.grp 2 spacedNumRE))))))

/-- Regex `(\d+(?:\.\d+)?)` body. -/
def decNumRE : RE := .seq (rplus rdigit) (.opt (.seq (rchar '.') (rplus rdigit)))

/-- One half of the DMS pattern:
`(\d+)°(\d+)'(\d+(?:\.\d+)?)"\s*([NS])` resp. `([EW])`, group numbers given;
under IGNORECASE the direction class also takes lowercase — but not `O`. -/
def dmsHalf (gd gm gs gdir : Nat) (dirs : Str) : RE :=
  .seq (.grp gd (rplus rdigit)) (.seq (rchar '°') (.seq (.grp gm (rplus rdigit))
    (.seq (rchar '\'') (.seq (.grp gs decNumRE) (.seq (rchar '"')
      (.seq (.star rws) (.grp gdir (rcls dirs))))))))

/-- Lat/Long pattern 1 (DMS, line 369). -/
def dmsPat : RE :=
  .seq (dmsHalf 1 2 3 4 (['N', 'S', 'n', 's']))
    (.seq (.star rws) (.seq (rchar '/') (.seq (.star rws)
      (dmsHalf 5 6 7 8 (['E', 'W', 'e', 'w'])))))

/-- Lat/Long pattern 2: `([+-]?\d+(?:\.\d+)?)\s*,\s*([+-]?\d+(?:\.\d+)?)`. -/
def decPairPat : RE :=
  .seq (.grp 1 (.seq (.opt (rcls (['+', '-']))) decNumRE))
    (.seq (.star rws) (.seq (rchar ',') (.seq (.star rws)
      (.grp 2 (.seq (.opt (rcls (['+', '-']))) decNumRE)))))

def latLongUnit : Str := ("Lat/Long").toList

def coordValue (lat lon : ℚ) : Str :=
  formatFixed 6 lat ++ (", ").toList ++ formatFixed 6 lon

/-- The mixed `426542; -77.42` branch (lines 300-332); `none` falls through
to the UTM patterns, as the source's control flow and `except: pass` do. -/
def mixedBranch (text : Str) : Option ConversionResult :=
  match research mixedPat text with
  | none => none
  | some f =>
    match gget f.groups 1, gget f.groups 2 with
    | some first_val, some second_val =>
      if first_val.length = 6 ∧ first_val.all Char.isDigit then
        if (second_val.filter (fun c => c ≠ '.' ∧ c ≠ '-')).length ≥ 6 then
          some { value := some (.str (coordValue 0 0)), unit := latLongUnit,
                 confidence := 0.3,
                 original_text := ("UTM ").toList ++ (toString (parseNatDigits first_val)).toList ++
                   ("E ").toList ++ second_val ++
                   ("N → Lat/Long (Konvertierung nicht implementiert)").toList }
        else
          match parsePyFloat second_val with
          | some lon =>
            some { value := some (.str (coordValue 0 lon)), unit := latLongUnit,
                   confidence := 0.7,
                   original_text := ("UTM Easting ").toList ++
                     (toString (parseNatDigits first_val)).toList ++
                     (" + Longitude ").toList ++ floatRepr lon ++ (" → Lat/Long").toList }
          | none => none
      else none
    | _, _ => none

/-- One UTM pattern attempt (lines 341-365): a match with both
space-stripped groups at least 6 characters long returns the placeholder
result; otherwise the next pattern is tried. -/
def utmTry (p : RE) (text : Str) : Option ConversionResult :=
  match research p text with
  | none => none
  | some f =>
    match gget f.groups 1, gget f.groups 2 with
    | some g1, some g2 =>
      if (dropSpaces g1).length ≥ 6 ∧ (dropSpaces g2).length ≥ 6 then
        match parsePyNat (dropSpaces g1), parsePyNat (dropSpaces g2) with
        | some easting, some northing =>
          some { value := some (.str (coordValue 0 0)), unit := latLongUnit,
                 confidence := 0.3,
                 original_text := ("UTM ").toList ++ (toString easting).toList ++
                   ("E ").toList ++ (toString northing).toList ++
                   ("N → Lat/Long (Konvertierung nicht implementiert)").toList }
        | _, _ => none
      else none
    | _, _ => none

def utmBranch (text : Str) : Option ConversionResult :=
  match utmTry utmPat1 text with
  | some r => some r
  | none =>
    match utmTry utmPat2 text with
    | some r => some r
    | none => utmTry utmPat3 text

/-- The valid-coordinate result shape shared by the Lat/Long construction
sites (lines 402-406). -/
def latLongResult (lat lon : ℚ) : ConversionResult :=
  { value := some (.str (coordValue lat lon)), unit := latLongUnit,
    confidence := 0.9,
    original_text := ("Lat/Long: ").toList ++ coordValue lat lon }

/-- DMS sign handling (lines 393-400): `deg + min/60 + sec/3600`, negated
when the direction letter uppercases to the given letter. -/
def dmsToDec (deg minutes : Nat) (sec : ℚ) (dir : Str) (negDir : Char) : ℚ :=
  if upperL dir = [negDir] then -((deg : ℚ) + (minutes : ℚ) / 60 + sec / 3600)
  else (deg : ℚ) + (minutes : ℚ) / 60 + sec / 3600

/-- The DMS attempt (lines 381-406): degrees + minutes/60 + seconds/3600,
sign flipped for S and W. -/
def dmsTry (text : Str) : Option ConversionResult :=
  match research dmsPat text with
  | none => none
  | some f =>
    match gget f.groups 1, gget f.groups 2, gget f.groups 3, gget f.groups 4,
        gget f.groups 5, gget f.groups 6, gget f.groups 7, gget f.groups 8 with
    | some g1, some g2, some g3, some g4, some g5, some g6, some g7, some g8 =>
      match parsePyNat g1, parsePyNat g2, parsePyFloat g3,
          parsePyNat g5, parsePyNat g6, parsePyFloat g7 with
      | some latDeg, some latMin, some latSec, some lonDeg, some lonMin, some lonSec =>
        some (latLongResult (dmsToDec latDeg latMin latSec g4 'S')
          (dmsToDec lonDeg lonMin lonSec g8 'W'))
      | _, _, _, _, _, _ => none
    | _, _, _, _, _, _, _, _ => none

/-- The decimal `lat, lon` attempt (lines 377-380, 402-406). -/
def decPairTry (text : Str) : Option ConversionResult :=
  match research decPairPat text with
  | none => none
  | some f =>
    match gget f.groups 1, gget f.groups 2 with
    | some g1, some g2 =>
      match parsePyFloat g1, parsePyFloat g2 with
      | some lat, some lon => some (latLongResult lat lon)
      | _, _ => none
    | _, _ => none

def latLongBranch (text : Str) : Option ConversionResult :=
  match dmsTry text with
  | some r => some r
  | none => decPairTry text

/-- `UnitConverter.normalize_coordinates` (lines 284-413). -/
def normalize_coordinates (text : Str) : ConversionResult :=
  if text.isEmpty || (pyStrip text).isEmpty then
    { original_text := text, error_message := ("Leerer Text").toList }
  else
    match mixedBranch text with
    | some r => r
    | none =>
      match utmBranch text with
      | some r => r
      | none =>
        match latLongBranch text with
        | some r => r
        | none =>
          { original_text := text,
            error_message := ("Keine gültigen Koordinaten gefunden").toList }

/-! ### Claims C1, C2 and C8 -/

/-- C1: evaluating the code at the claimed input.  The claim (and spec) say
`normalize_production_rate "2,4 Mt/Jahr"` yields 2,400,000 t/Jahr; the code
yields 2.4 t/Jahr because the factor search takes the first table token that
is a substring of the matched unit, and `t/j` (factor 1.0) is a substring of
`mt/jahr`, shadowing the `mt/...` entries (factor 1,000,000) for every
megatonne unit.  Confidence is 0.8 and the unit is `t/Jahr` as claimed. -/
theorem C1_production_mt_jahr_code_eval :
    (normalize_production_rate (("2,4 Mt/Jahr").toList)).value = some (.num (12 / 5 : ℚ)) ∧
    (normalize_production_rate (("2,4 Mt/Jahr").toList)).unit = ("t/Jahr").toList ∧
    (normalize_production_rate (("2,4 Mt/Jahr").toList)).confidence = (0.8 : ℚ) ∧
    (normalize_production_rate (("2,4 Mt/Jahr").toList)).value ≠ some (.num (2400000 : ℚ)) := by
  refine ⟨by with_unfolding_all rfl, by with_unfolding_all rfl, by with_unfolding_all rfl, ?_⟩
  intro h
  rw [show (normalize_production_rate (("2,4 Mt/Jahr").toList)).value
      = some (.num (12 / 5 : ℚ)) from by with_unfolding_all rfl] at h
  simp only [Option.some.injEq, PyVal.num.injEq] at h
  exact absurd h (by norm_num)

/-- C2: evaluating the code at the claimed input.  The claim (and spec) say
`normalize_coordinates "52°41'58.37\" N / 76°05'13.13\" O"` succeeds with
confidence 0.9; the code returns an invalid result with an error, because the
DMS direction class `[EW]` (even case-insensitively) never matches the German
east marker `O`, and no other pattern applies. -/
theorem C2_coordinates_german_O_code_eval :
    (normalize_coordinates (("52°41'58.37\" N / 76°05'13.13\" O").toList)).error_message =
      ("Keine gültigen Koordinaten gefunden").toList ∧
    (normalize_coordinates (("52°41'58.37\" N / 76°05'13.13\" O").toList)).is_valid = false ∧
    (normalize_coordinates (("52°41'58.37\" N / 76°05'13.13\" O").toList)).value = none := by
  refine ⟨by with_unfolding_all rfl, by with_unfolding_all rfl, by with_unfolding_all rfl⟩

/-- The all-or-nothing shape C8 asserts of one result. -/
def allOrNothing (r : ConversionResult) : Prop :=
  (r.is_valid = true ∨ r.error_message ≠ []) ∧ (r.value.isSome ↔ r.unit ≠ [])

lemma mixedBranch_shape (t : Str) (r : ConversionResult) (h : mixedBranch t = some r) :
    r.value.isSome = true ∧ r.unit = latLongUnit ∧ r.error_message = [] := by
  unfold mixedBranch at h
  repeat' split at h
  any_goals exact Option.noConfusion h
  all_goals (injection h with h; subst h; simp)

lemma utmTry_shape (p : RE) (t : Str) (r : ConversionResult) (h : utmTry p t = some r) :
    r.value.isSome = true ∧ r.unit = latLongUnit ∧ r.error_message = [] := by
  unfold utmTry at h
  repeat' split at h
  any_goals exact Option.noConfusion h
  all_goals (injection h with h; subst h; simp)

lemma utmBranch_shape (t : Str) (r : ConversionResult) (h : utmBranch t = some r) :
    r.value.isSome = true ∧ r.unit = latLongUnit ∧ r.error_message = [] := by
  unfold utmBranch at h
  split at h
  · rename_i r1 heq
    injection h with h; subst h
    exact utmTry_shape _ _ _ heq
  · split at h
    · rename_i r2 heq
      injection h with h; subst h
      exact utmTry_shape _ _ _ heq
    · exact utmTry_shape _ _ _ h

lemma dmsTry_shape (t : Str) (r : ConversionResult) (h : dmsTry t = some r) :
    r.value.isSome = true ∧ r.unit = latLongUnit ∧ r.error_message = [] := by
  unfold dmsTry at h
  repeat' split at h
  any_goals exact Option.noConfusion h
  all_goals (injection h with h; subst h; simp [latLongResult])

lemma decPairTry_shape (t : Str) (r : ConversionResult) (h : decPairTry t = some r) :
    r.value.isSome = true ∧ r.unit = latLongUnit ∧ r.error_message = [] := by
  unfold decPairTry at h
  repeat' split at h
  any_goals exact Option.noConfusion h
  all_goals (injection h with h; subst h; simp [latLongResult])

lemma latLongBranch_shape (t : Str) (r : ConversionResult) (h : latLongBranch t = some r) :
    r.value.isSome = true ∧ r.unit = latLongUnit ∧ r.error_message = [] := by
  unfold latLongBranch at h
  split at h
  · rename_i r1 heq
    injection h with h; subst h
    exact dmsTry_shape _ _ heq
  · exact decPairTry_shape _ _ h

/-- C8: every result of the three normalizers is either fully valid (exactly
the `is_valid` condition) or carries a nonempty error message, and a value is
present exactly when a unit is — no partial numeric value is ever emitted.
For the area normalizer the caller-selected target unit is `km²` or `ha` per
the spec; any nonempty target suffices here. -/
theorem C8_conversion_all_or_nothing (text target : Str) (htarget : target ≠ []) :
    allOrNothing (normalize_production_rate text) ∧
    allOrNothing (normalize_area text target) ∧
    allOrNothing (normalize_coordinates text) := by
  refine ⟨?_, ?_, ?_⟩
  · unfold normalize_production_rate allOrNothing
    split
    · simp [ConversionResult.is_valid]
    · split
      · simp [ConversionResult.is_valid]
      · simp [ConversionResult.is_valid]
  · unfold normalize_area allOrNothing
    split
    · simp [ConversionResult.is_valid]
    · split
      · simp [ConversionResult.is_valid, htarget]
      · simp [ConversionResult.is_valid]
  · unfold normalize_coordinates allOrNothing
    split
    · simp [ConversionResult.is_valid]
    · split
      · rename_i r h
        obtain ⟨h1, h2, h3⟩ := mixedBranch_shape _ _ h
        constructor
        · left; simp [ConversionResult.is_valid, h1, h2, h3, latLongUnit]
        · simp [h1, h2, latLongUnit]
      · split
        · rename_i r h
          obtain ⟨h1, h2, h3⟩ := utmBranch_shape _ _ h
          constructor
          · left; simp [ConversionResult.is_valid, h1, h2, h3, latLongUnit]
          · simp [h1, h2, latLongUnit]
        · split
          · rename_i r h
            obtain ⟨h1, h2, h3⟩ := latLongBranch_shape _ _ h
            constructor
            · left; simp [ConversionResult.is_valid, h1, h2, h3, latLongUnit]
            · simp [h1, h2, latLongUnit]
          · simp [ConversionResult.is_valid]

/-- C8 witness: the theorem at a concrete input with the hypothesis
discharged. -/
theorem C8_conversion_all_or_nothing_witness :
    allOrNothing (normalize_production_rate (("2,4 Mt/Jahr").toList)) ∧
    allOrNothing (normalize_area (("2,4 Mt/Jahr").toList) (("km²").toList)) ∧
    allOrNothing (normalize_coordinates (("2,4 Mt/Jahr").toList)) :=
  C8_conversion_all_or_nothing (("2,4 Mt/Jahr").toList) (("km²").toList) (by decide)

/-! ### `ChunkProcessor.create_chunks` (data_transformer.py lines 96-185)

The embedding carries, next to each `ChunkInfo`, the half-open window
`(winStart, winEnd)` of the original text its payload slice covers — the
values of the source's `effective_start`/`end_idx` loop variables, which the
source itself records in the chunk metadata. -/

structure ChunkMeta where
  has_overlap : Bool := false
  overlap_start : Option Nat := none
  chunk_start : Option Nat := none
  chunk_end : Option Nat := none
deriving DecidableEq, Repr

/-- `ChunkInfo` (lines 27-38); `__post_init__` forces
`chunk_size = len(chunk_text)`, which the constructors below reproduce. -/
structure ChunkInfo where
  chunk_id : Str
  chunk_text : Str
  file_basename : Str
  chunk_description : Str
  chunk_size : Nat
  metadata : ChunkMeta := {}
deriving DecidableEq, Repr

/-- `MAX_CHUNKS_PER_FILE` of `config/settings.py` (default 24 per the
`_get_max_chunks_per_file` docstring). -/
def MAX_CHUNKS_PER_FILE : Nat := 24

/-- `ChunkProcessor._get_max_chunks_per_file` (lines 72-94): a configured
value that is not a positive integer falls back to the default. -/
def get_max_chunks_per_file (cfg : Option Int) : Nat :=
  match cfg with
  | some n => if n ≤ 0 then MAX_CHUNKS_PER_FILE else n.toNat
  | none => MAX_CHUNKS_PER_FILE

lemma get_max_chunks_per_file_pos (cfg : Option Int) : 1 ≤ get_max_chunks_per_file cfg := by
  cases cfg with
  | none => simp [get_max_chunks_per_file, MAX_CHUNKS_PER_FILE]
  | some n =>
    simp only [get_max_chunks_per_file]
    split
    · simp [MAX_CHUNKS_PER_FILE]
    · rename_i h; omega

/-- The `[...Kontext-Überlappung: N Zeichen...]\n` marker line (line 140). -/
def overlapMarker (n : Nat) : Str :=
  ("[...Kontext-Überlappung: ").toList ++ (toString n).toList ++ (" Zeichen...]\n").toList

/-- `f"'{file_basename}' ({description.upper()})\n"` (line 155). -/
def chunkHeader (basename desc : Str) : Str :=
  ("'").toList ++ basename ++ ("' (").toList ++ upperL desc ++ (")\n").toList

/-- `effective_start` (line 134): `max(0, start_idx - overlap_size)` for
chunks after the first, else `start_idx` (truncated `Nat` subtraction is the
`max(0, ·)`). -/
def chunkEff (ov idx start : Nat) : Nat := if 1 < idx then start - ov else start

/-- `end_idx` (line 135). -/
def chunkEnd (cs len start : Nat) : Nat := min (start + cs) len

/-- The next `start_idx` (line 168): `end_idx - overlap_size // 4` while text
remains, else `end_idx`. -/
def chunkNext (cs ov len start : Nat) : Nat :=
  if chunkEnd cs len start < len then chunkEnd cs len start - ov / 4 else chunkEnd cs len start

/-- The `ChunkInfo` built by one loop iteration (lines 137-165). -/
def chunkMk (content basename : Str) (cs ov idx start : Nat) : ChunkInfo :=
  let eff := chunkEff ov idx start
  let endI := chunkEnd cs content.length start
  let desc := if start = 0 then ("Anfangsbereich").toList
    else if content.length ≤ endI then ("Endbereich").toList
    else ("Bereich ").toList ++ (toString idx).toList
  let useOv := 1 < idx ∧ eff < start
  let marker := if useOv then overlapMarker (start - eff) else []
  let slice := if useOv then (content.drop eff).take (endI - eff)
    else (content.drop start).take (endI - start)
  let text := chunkHeader basename desc ++ marker ++ ("\n").toList ++ slice
  { chunk_id := ("CHUNK-").toList ++ (toString idx).toList,
    chunk_text := text, file_basename := basename, chunk_description := desc,
    chunk_size := text.length,
    metadata := { has_overlap := 1 < idx, overlap_start := some eff,
                  chunk_start := some start, chunk_end := some endI } }

/-- The loop of lines 132-169.  `fuel` counts remaining iterations, so the
initial call with `fuel = max_chunks` and `chunk_index = 1` realizes the
source's `chunk_index <= max_chunks` bound.  Returns the produced chunks
(with windows) and the exit value of `start_idx`. -/
def createChunksLoop (content basename : Str) (cs ov : Nat) :
    Nat → Nat → Nat → List (ChunkInfo × Nat × Nat) × Nat
  | 0, start, _ => ([], start)
  | fuel + 1, start, idx =>
    if start < content.length then
      match createChunksLoop content basename cs ov fuel
          (chunkNext cs ov content.length start) (idx + 1) with
      | (lst, fin) =>
        ((chunkMk content basename cs ov idx start,
          chunkEff ov idx start, chunkEnd cs content.length start) :: lst, fin)
    else ([], start)

/-- The tail merge of lines 171-182: the uncovered remainder is appended
verbatim to the last chunk, which is rebuilt without metadata. -/
def mergeTail (cw : ChunkInfo × Nat × Nat) (content : Str) (fin : Nat) :
    ChunkInfo × Nat × Nat :=
  ({ chunk_id := cw.1.chunk_id, chunk_text := cw.1.chunk_text ++ content.drop fin,
     file_basename := cw.1.file_basename, chunk_description := cw.1.chunk_description,
     chunk_size := (cw.1.chunk_text ++ content.drop fin).length, metadata := {} },
   cw.2.1, content.length)

/-- `ChunkProcessor.create_chunks` with each chunk's covered window. -/
def create_chunks_w (content basename : Str) (chunk_size : Nat)
    (overlap_size : Nat := 500) (max_chunks : Nat := MAX_CHUNKS_PER_FILE) :
    List (ChunkInfo × Nat × Nat) :=
  if content.length ≤ chunk_size then
    [({ chunk_id := ("SINGLE").toList,
        chunk_text := ("'").toList ++ basename ++ ("' (VOLLSTÄNDIG)\n\n").toList ++ content,
        file_basename := basename,
        chunk_description := ("Vollständiger Inhalt").toList,
        chunk_size := (("'").toList ++ basename ++ ("' (VOLLSTÄNDIG)\n\n").toList ++ content).length,
        metadata := { has_overlap := false } }, 0, content.length)]
  else
    let r := createChunksLoop content basename chunk_size overlap_size max_chunks 0 1
    if r.2 < content.length then
      match r.1.getLast? with
      | some lastc => r.1.dropLast ++ [mergeTail lastc content r.2]
      | none => r.1
    else r.1

/-- `ChunkProcessor.create_chunks` as the source returns it. -/
def create_chunks (content basename : Str) (chunk_size : Nat)
    (overlap_size : Nat := 500) (max_chunks : Nat := MAX_CHUNKS_PER_FILE) : List ChunkInfo :=
  (create_chunks_w content basename chunk_size overlap_size max_chunks).map Prod.fst

lemma createChunksLoop_eq_pos (content basename : Str) (cs ov fuel start idx : Nat)
    (h : start < content.length) :
    createChunksLoop content basename cs ov (fuel + 1) start idx =
      ((chunkMk content basename cs ov idx start,
        chunkEff ov idx start, chunkEnd cs content.length start) ::
        (createChunksLoop content basename cs ov fuel
          (chunkNext cs ov content.length start) (idx + 1)).1,
       (createChunksLoop content basename cs ov fuel
          (chunkNext cs ov content.length start) (idx + 1)).2) := by
  rcases hr : createChunksLoop content basename cs ov fuel
    (chunkNext cs ov content.length start) (idx + 1) with ⟨lst, fin⟩
  simp only [createChunksLoop]
  rw [if_pos h, hr]

lemma createChunksLoop_eq_neg (content basename : Str) (cs ov fuel start idx : Nat)
    (h : ¬ start < content.length) :
    createChunksLoop content basename cs ov (fuel + 1) start idx = ([], start) := by
  unfold createChunksLoop
  rw [if_neg h]

lemma chunkEff_le (ov idx start : Nat) : chunkEff ov idx start ≤ start := by
  unfold chunkEff; split <;> omega

lemma chunkEnd_le (cs len start : Nat) : chunkEnd cs len start ≤ len := by
  unfold chunkEnd; omega

lemma chunkEnd_ge (cs len start : Nat) (h : start < len) : start ≤ chunkEnd cs len start := by
  unfold chunkEnd; omega

lemma chunkNext_le (cs ov len start : Nat) : chunkNext cs ov len start ≤ chunkEnd cs len start := by
  unfold chunkNext; split <;> omega

lemma createChunksLoop_length (content basename : Str) (cs ov : Nat) :
    ∀ fuel start idx,
      (createChunksLoop content basename cs ov fuel start idx).1.length ≤ fuel := by
  intro fuel
  induction fuel with
  | zero => intro start idx; simp [createChunksLoop]
  | succ n ih =>
    intro start idx
    by_cases h : start < content.length
    · rw [createChunksLoop_eq_pos content basename cs ov n start idx h]
      simpa using ih _ _
    · rw [createChunksLoop_eq_neg content basename cs ov n start idx h]
      simp

lemma createChunksLoop_cover (content basename : Str) (cs ov : Nat) :
    ∀ fuel start idx p, start ≤ p →
      p < (createChunksLoop content basename cs ov fuel start idx).2 →
      ∃ cw ∈ (createChunksLoop content basename cs ov fuel start idx).1,
        cw.2.1 ≤ p ∧ p < cw.2.2 := by
  intro fuel
  induction fuel with
  | zero => intro start idx p h1 h2; simp [createChunksLoop] at h2; omega
  | succ n ih =>
    intro start idx p h1 h2
    by_cases hlt : start < content.length
    · rw [createChunksLoop_eq_pos content basename cs ov n start idx hlt] at h2 ⊢
      by_cases hp : p < chunkEnd cs content.length start
      · exact ⟨_, List.mem_cons_self _ _, le_trans (chunkEff_le ov idx start) h1, hp⟩
      · have hstep : chunkNext cs ov content.length start ≤ p :=
          le_trans (chunkNext_le cs ov content.length start) (by omega)
        obtain ⟨cw, hmem, hc⟩ := ih _ (idx + 1) p hstep h2
        exact ⟨cw, List.mem_cons_of_mem _ hmem, hc⟩
    · rw [createChunksLoop_eq_neg content basename cs ov n start idx hlt] at h2
      simp at h2; omega

lemma createChunksLoop_endI_le (content basename : Str) (cs ov : Nat) :
    ∀ fuel start idx, ∀ cw ∈ (createChunksLoop content basename cs ov fuel start idx).1,
      cw.2.2 ≤ content.length := by
  intro fuel
  induction fuel with
  | zero => intro start idx cw h; simp [createChunksLoop] at h
  | succ n ih =>
    intro start idx cw h
    by_cases hlt : start < content.length
    · rw [createChunksLoop_eq_pos content basename cs ov n start idx hlt] at h
      rcases List.mem_cons.mp h with h | h
      · subst h; exact chunkEnd_le cs content.length start
      · exact ih _ _ _ h
    · rw [createChunksLoop_eq_neg content basename cs ov n start idx hlt] at h
      simp at h

lemma createChunksLoop_nil_fin (content basename : Str) (cs ov : Nat) (fuel start idx : Nat)
    (h : (createChunksLoop content basename cs ov fuel start idx).1 = []) :
    (createChunksLoop content basename cs ov fuel start idx).2 = start := by
  cases fuel with
  | zero => simp [createChunksLoop]
  | succ n =>
    by_cases hlt : start < content.length
    · rw [createChunksLoop_eq_pos content basename cs ov n start idx hlt] at h
      simp at h
    · rw [createChunksLoop_eq_neg content basename cs ov n start idx hlt]

lemma createChunksLoop_last_win (content basename : Str) (cs ov : Nat) :
    ∀ fuel start idx, 1 ≤ idx → (idx = 1 → start = 0) →
      ∀ lastc, (createChunksLoop content basename cs ov fuel start idx).1.getLast? = some lastc →
      (createChunksLoop content basename cs ov fuel start idx).2 < content.length →
      lastc.2.1 ≤ (createChunksLoop content basename cs ov fuel start idx).2 := by
  intro fuel
  induction fuel with
  | zero => intro start idx _ _ lastc h _; simp [createChunksLoop] at h
  | succ n ih =>
    intro start idx hidx hidx1 lastc hlast hfin
    by_cases hlt : start < content.length
    · rw [createChunksLoop_eq_pos content basename cs ov n start idx hlt] at hlast hfin ⊢
      rcases hrest : (createChunksLoop content basename cs ov n
          (chunkNext cs ov content.length start) (idx + 1)).1 with _ | ⟨x, xs⟩
      · -- the recursive list is empty, so the head chunk is the last one and
        -- the exit start is the next-start of this iteration
        rw [hrest] at hlast
        simp only [List.getLast?_singleton, Option.some.injEq] at hlast
        have hfe := createChunksLoop_nil_fin content basename cs ov n
          (chunkNext cs ov content.length start) (idx + 1) hrest
        rw [hfe] at hfin ⊢
        subst hlast
        simp only
        -- goal: chunkEff ov idx start ≤ chunkNext cs ov content.length start
        have h1 : start ≤ chunkEnd cs content.length start :=
          chunkEnd_ge cs content.length start hlt
        have h2 : ov / 4 ≤ ov := Nat.div_le_self ov 4
        simp only [chunkNext, chunkEff] at hfin ⊢
        by_cases hend : chunkEnd cs content.length start < content.length
        · rw [if_pos hend]
          split
          · omega
          · rename_i h3
            have h0 : start = 0 := hidx1 (by omega)
            omega
        · rw [if_neg hend]
          split <;> omega
      · -- the last chunk comes from the recursive call
        rw [hrest, List.getLast?_cons_cons] at hlast
        rw [← hrest] at hlast
        exact ih (chunkNext cs ov content.length start) (idx + 1) (by omega) (by omega)
          lastc hlast hfin
    · rw [createChunksLoop_eq_neg content basename cs ov n start idx hlt] at hlast
      simp at hlast

lemma createChunksLoop_ne_nil (content basename : Str) (cs ov fuel start idx : Nat)
    (hfuel : 1 ≤ fuel) (hlt : start < content.length) :
    (createChunksLoop content basename cs ov fuel start idx).1 ≠ [] := by
  cases fuel with
  | zero => omega
  | succ n =>
    rw [createChunksLoop_eq_pos content basename cs ov n start idx hlt]
    simp

lemma create_chunks_w_eq_merge (content basename : Str) (cs ov maxc : Nat)
    (hnotsmall : ¬ content.length ≤ cs) (lastc : ChunkInfo × Nat × Nat)
    (hlast : (createChunksLoop content basename cs ov maxc 0 1).1.getLast? = some lastc)
    (hF : (createChunksLoop content basename cs ov maxc 0 1).2 < content.length) :
    create_chunks_w content basename cs ov maxc =
      (createChunksLoop content basename cs ov maxc 0 1).1.dropLast ++
        [mergeTail lastc content (createChunksLoop content basename cs ov maxc 0 1).2] := by
  unfold create_chunks_w
  rw [if_neg hnotsmall, if_pos hF, hlast]

lemma create_chunks_w_eq_plain (content basename : Str) (cs ov maxc : Nat)
    (hnotsmall : ¬ content.length ≤ cs)
    (hF : ¬ (createChunksLoop content basename cs ov maxc 0 1).2 < content.length) :
    create_chunks_w content basename cs ov maxc =
      (createChunksLoop content basename cs ov maxc 0 1).1 := by
  unfold create_chunks_w
  rw [if_neg hnotsmall, if_neg hF]

/-- C3: for text strictly longer than the chunk size (and a positive chunk
cap, which `_get_max_chunks_per_file` guarantees), `create_chunks` emits at
most `max_chunks` chunks; the chunk windows cover every character position of
the original text with no gaps; and when the loop stops before exhausting the
text, the entire remaining tail is appended verbatim to the last chunk. -/
theorem C3_chunker_cap_and_coverage (content basename : Str)
    (chunk_size overlap_size max_chunks : Nat)
    (hlen : chunk_size < content.length) (hmax : 1 ≤ max_chunks) :
    (create_chunks content basename chunk_size overlap_size max_chunks).length ≤ max_chunks ∧
    (∀ p, p < content.length →
      ∃ cw ∈ create_chunks_w content basename chunk_size overlap_size max_chunks,
        cw.2.1 ≤ p ∧ p < cw.2.2) ∧
    (∀ lastc,
      (createChunksLoop content basename chunk_size overlap_size max_chunks 0 1).1.getLast?
          = some lastc →
      (createChunksLoop content basename chunk_size overlap_size max_chunks 0 1).2
          < content.length →
      ∃ lc2, (create_chunks_w content basename chunk_size overlap_size max_chunks).getLast?
          = some lc2 ∧
        lc2.1.chunk_text = lastc.1.chunk_text ++
          content.drop
            (createChunksLoop content basename chunk_size overlap_size max_chunks 0 1).2 ∧
        lc2.1.chunk_id = lastc.1.chunk_id) := by
  have hnotsmall : ¬ content.length ≤ chunk_size := by omega
  have hne : (createChunksLoop content basename chunk_size overlap_size max_chunks 0 1).1 ≠ [] :=
    createChunksLoop_ne_nil content basename chunk_size overlap_size max_chunks 0 1 hmax
      (by omega)
  have hlenloop := createChunksLoop_length content basename chunk_size overlap_size
    max_chunks 0 1
  have hlen1 : 1 ≤ (createChunksLoop content basename chunk_size overlap_size
      max_chunks 0 1).1.length := by
    cases h : (createChunksLoop content basename chunk_size overlap_size max_chunks 0 1).1 with
    | nil => exact absurd h hne
    | cons a l => simp
  refine ⟨?_, ?_, ?_⟩
  · -- the chunk count is bounded by the cap
    by_cases hF : (createChunksLoop content basename chunk_size overlap_size
        max_chunks 0 1).2 < content.length
    · obtain ⟨lastc, hlast⟩ := Option.isSome_iff_exists.mp
        (List.getLast?_isSome.mpr hne)
      unfold create_chunks
      rw [create_chunks_w_eq_merge content basename chunk_size overlap_size max_chunks
        hnotsmall lastc hlast hF]
      simp only [List.length_map, List.length_append, List.length_dropLast,
        List.length_singleton]
      omega
    · unfold create_chunks
      rw [create_chunks_w_eq_plain content basename chunk_size overlap_size max_chunks
        hnotsmall hF]
      simpa using hlenloop
  · -- coverage of every position
    intro p hp
    by_cases hF : (createChunksLoop content basename chunk_size overlap_size
        max_chunks 0 1).2 < content.length
    · obtain ⟨lastc, hlast⟩ := Option.isSome_iff_exists.mp
        (List.getLast?_isSome.mpr hne)
      rw [create_chunks_w_eq_merge content basename chunk_size overlap_size max_chunks
        hnotsmall lastc hlast hF]
      have hsplit : (createChunksLoop content basename chunk_size overlap_size
          max_chunks 0 1).1.dropLast ++ [(createChunksLoop content basename chunk_size
          overlap_size max_chunks 0 1).1.getLast hne] =
          (createChunksLoop content basename chunk_size overlap_size max_chunks 0 1).1 :=
        List.dropLast_append_getLast hne
      have hlasteq : lastc = (createChunksLoop content basename chunk_size overlap_size
          max_chunks 0 1).1.getLast hne := by
        have := List.getLast?_eq_getLast
          (createChunksLoop content basename chunk_size overlap_size max_chunks 0 1).1 hne
        rw [this] at hlast
        exact (Option.some.injEq _ _ ▸ hlast).symm
      have hwin1 : lastc.2.1 ≤ (createChunksLoop content basename chunk_size overlap_size
          max_chunks 0 1).2 :=
        createChunksLoop_last_win content basename chunk_size overlap_size max_chunks 0 1
          le_rfl (fun _ => rfl) lastc hlast hF
      by_cases hpf : p < (createChunksLoop content basename chunk_size overlap_size
          max_chunks 0 1).2
      · obtain ⟨cw, hmem, hc1, hc2⟩ := createChunksLoop_cover content basename chunk_size
          overlap_size max_chunks 0 1 p (Nat.zero_le p) hpf
        rw [← hsplit] at hmem
        rcases List.mem_append.mp hmem with hmem | hmem
        · exact ⟨cw, List.mem_append_left _ hmem, hc1, by
            have := createChunksLoop_endI_le content basename chunk_size overlap_size
              max_chunks 0 1 cw (by rw [← hsplit]; exact List.mem_append.mpr (Or.inl hmem))
            omega⟩
        · -- the covering chunk is the last one: the merged window extends it
          have hcw : cw = lastc := by
            rw [hlasteq]; simpa using hmem
          refine ⟨mergeTail lastc content (createChunksLoop content basename chunk_size
            overlap_size max_chunks 0 1).2, List.mem_append_right _ (by simp), ?_, ?_⟩
          · show lastc.2.1 ≤ p
            rw [← hcw]; exact hc1
          · exact hp
      · refine ⟨mergeTail lastc content (createChunksLoop content basename chunk_size
          overlap_size max_chunks 0 1).2, List.mem_append_right _ (by simp), ?_, ?_⟩
        · show lastc.2.1 ≤ p
          omega
        · exact hp
    · rw [create_chunks_w_eq_plain content basename chunk_size overlap_size max_chunks
        hnotsmall hF]
      exact createChunksLoop_cover content basename chunk_size overlap_size max_chunks 0 1 p
        (Nat.zero_le p) (by omega)
  · -- the remaining tail is appended verbatim to the last chunk
    intro lastc hlast hF
    rw [create_chunks_w_eq_merge content basename chunk_size overlap_size max_chunks
      hnotsmall lastc hlast hF]
    refine ⟨mergeTail lastc content (createChunksLoop content basename chunk_size
      overlap_size max_chunks 0 1).2, ?_, rfl, rfl⟩
    exact List.getLast?_concat _

/-- C3 witness: the theorem at a concrete 10-character text, chunk size 3,
overlap 2 and cap 2, discharging both hypotheses. -/
theorem C3_chunker_cap_and_coverage_witness :
    (create_chunks (("abcdefghij").toList) (("f").toList) 3 2 2).length ≤ 2 ∧
    (∀ p, p < (("abcdefghij").toList).length →
      ∃ cw ∈ create_chunks_w (("abcdefghij").toList) (("f").toList) 3 2 2,
        cw.2.1 ≤ p ∧ p < cw.2.2) ∧
    (∀ lastc,
      (createChunksLoop (("abcdefghij").toList) (("f").toList) 3 2 2 0 1).1.getLast?
          = some lastc →
      (createChunksLoop (("abcdefghij").toList) (("f").toList) 3 2 2 0 1).2
          < (("abcdefghij").toList).length →
      ∃ lc2, (create_chunks_w (("abcdefghij").toList) (("f").toList) 3 2 2).getLast?
          = some lc2 ∧
        lc2.1.chunk_text = lastc.1.chunk_text ++
          (("abcdefghij").toList).drop
            (createChunksLoop (("abcdefghij").toList) (("f").toList) 3 2 2 0 1).2 ∧
        lc2.1.chunk_id = lastc.1.chunk_id) :=
  C3_chunker_cap_and_coverage (("abcdefghij").toList) (("f").toList) 3 2 2
    (by decide) (by decide)

/-! ### The result combiner (`ChunkProcessor.combine_chunk_results`, lines 370-434)

Python dicts are modelled as insertion-ordered association lists with
in-place update, matching dict assignment semantics. -/

abbrev RecMap := List (Str × Str)

def mlookup : RecMap → Str → Option Str
  | [], _ => none
  | (k, v) :: rest, key => if k = key then some v else mlookup rest key

/-- `d[key] = v`: replace in place, else append. -/
def mset : RecMap → Str → Str → RecMap
  | [], key, v => [(key, v)]
  | (k, w) :: rest, key, v =>
    if k = key then (k, v) :: rest else (k, w) :: mset rest key v

/-- `str.split(sep)` worker with explicit fuel (one unit per emitted piece,
each of which consumes at least one character, so `s.length` fuel always
suffices); structural, hence kernel-reducible. -/
def goSplitF (sep : Str) : Nat → Str → List Str
  | _, [] => [[]]
  | 0, s => [s]
  | fuel + 1, x :: xs =>
    if sep.isPrefixOf (x :: xs) then
      [] :: goSplitF sep fuel (xs.drop (sep.length - 1))
    else
      match goSplitF sep fuel xs with
      | [] => [[x]]
      | s :: rest => (x :: s) :: rest

def splitOnL (sep s : Str) : List Str := if sep = [] then [s] else goSplitF sep s.length s

/-- Modelled from the spec: `DataUtils.combine_values_with_separator`
(utils/helpers.py, portion not in the repository files).  Per §4.5 it
concatenates the new value onto the existing one with the cell separator
«while avoiding duplicate concatenation of an identical value»: a value
identical to the current cell or to one of its separator-joined segments is
not appended. -/
def combine_values_with_separator (current new sep : Str) : Str :=
  if new = current ∨ new ∈ splitOnL sep current then current
  else current ++ sep ++ new

/-- Modelled from the spec: `ChunkResult` (§3 ChunkOutcome; models/data_models.py
portion not in the repository files).  `processing_time` is wall-clock and left
unconstrained. -/
structure ChunkResult where
  chunk_id : Str
  chunk_description : Str := []
  success : Bool
  extracted_data : RecMap := []
  error_message : Str := []
  processing_time : Option ℚ := none
  confidence_score : ℚ := 0
deriving DecidableEq, Repr

/-- `TransformationResult` (data_transformer.py lines 41-55).  `metadata`
holds the integer counters the embedded steps record; `processing_time` is
wall-clock and set to `none`. -/
structure TransformationResult where
  success : Bool
  transformed_data : Option RecMap := none
  error_message : Option Str := none
  warnings : List Str := []
  processing_time : Option ℚ := none
  metadata : List (Str × Nat) := []
deriving DecidableEq, Repr

/-- The filter of line 384: `r.success and r.extracted_data` (dict truthiness
= non-emptiness). -/
def chunkOk (r : ChunkResult) : Bool := r.success && !r.extracted_data.isEmpty

/-- `DEFAULT_CELL_SEPARATOR` (config/settings.py line 96). -/
def DEFAULT_CELL_SEPARATOR : Str := (";").toList

/-- One `key, value` iteration of the merge loop (lines 400-418): trim both,
skip empty values, set an unset-or-empty field, otherwise combine with the
separator. -/
def combinePairStep (sep : Str) (m : RecMap) (kv : Str × Str) : RecMap :=
  if pyStrip kv.2 = [] then m
  else
    match mlookup m (pyStrip kv.1) with
    | none => mset m (pyStrip kv.1) (pyStrip kv.2)
    | some cur =>
      if cur = [] then mset m (pyStrip kv.1) (pyStrip kv.2)
      else mset m (pyStrip kv.1) (combine_values_with_separator cur (pyStrip kv.2) sep)

/-- The nested merge fold of lines 397-418. -/
def combinedData (sep : Str) (rs : List ChunkResult) : RecMap :=
  (rs.filter chunkOk).foldl
    (fun m r => r.extracted_data.foldl (combinePairStep sep) m) []

/-- `ChunkProcessor.combine_chunk_results` (lines 370-434). -/
def combine_chunk_results (chunk_results : List ChunkResult)
    (cell_separator : Str := DEFAULT_CELL_SEPARATOR) : TransformationResult :=
  if (chunk_results.filter chunkOk).isEmpty then
    { success := false,
      error_message := some (("Keine erfolgreichen Chunk-Ergebnisse zum Kombinieren").toList) }
  else
    { success := true,
      transformed_data := some (combinedData cell_separator chunk_results),
      warnings := [],
      metadata := [(("total_chunks").toList, chunk_results.length),
                   (("successful_chunks").toList, (chunk_results.filter chunkOk).length),
                   (("combined_fields").toList, (combinedData cell_separator chunk_results).length)] }

lemma mlookup_mset_self (m : RecMap) (k v : Str) : mlookup (mset m k v) k = some v := by
  induction m with
  | nil => simp [mset, mlookup]
  | cons p rest ih =>
    rcases p with ⟨k0, v0⟩
    by_cases h : k0 = k
    · simp [mset, h, mlookup]
    · simp [mset, h, mlookup, ih]

lemma mlookup_mset_ne (m : RecMap) (k v key : Str) (h : k ≠ key) :
    mlookup (mset m k v) key = mlookup m key := by
  induction m with
  | nil => simp [mset, mlookup, h]
  | cons p rest ih =>
    rcases p with ⟨k0, v0⟩
    by_cases h0 : k0 = k
    · subst h0; simp [mset, mlookup, h, ih]
    · simp only [mset, if_neg h0, mlookup]
      by_cases h1 : k0 = key
      · simp [h1]
      · simp [h1, ih]

/-- The per-field update the merge performs on an existing cell. -/
def stepVal (sep : Str) (cur : Option Str) (v : Str) : Str :=
  match cur with
  | none => v
  | some c => if c = [] then v else combine_values_with_separator c v sep

lemma combinePairStep_lookup (sep : Str) (m : RecMap) (kv : Str × Str) (key : Str) :
    mlookup (combinePairStep sep m kv) key =
      if pyStrip kv.1 = key ∧ pyStrip kv.2 ≠ [] then
        some (stepVal sep (mlookup m key) (pyStrip kv.2))
      else mlookup m key := by
  unfold combinePairStep
  by_cases hv : pyStrip kv.2 = []
  · simp [hv]
  · simp only [if_neg hv]
    by_cases hk : pyStrip kv.1 = key
    · subst hk
      rcases hcur : mlookup m (pyStrip kv.1) with _ | cur
      · simp [hv, mlookup_mset_self, stepVal, hcur]
      · by_cases hc : cur = []
        · simp [hv, hc, mlookup_mset_self, stepVal, hcur]
        · simp [hv, hc, mlookup_mset_self, stepVal, hcur]
    · have hne : ¬ (pyStrip kv.1 = key ∧ pyStrip kv.2 ≠ []) := fun h => hk h.1
      rcases hcur : mlookup m (pyStrip kv.1) with _ | cur
      · simp [hne, mlookup_mset_ne m _ _ _ hk]
      · by_cases hc : cur = [] <;>
          simp [hne, hc, mlookup_mset_ne m _ _ _ hk]

lemma stepVal_ne_nil (sep : Str) (cur : Option Str) (v : Str) (hv : v ≠ []) :
    stepVal sep cur v ≠ [] := by
  unfold stepVal
  rcases cur with _ | c
  · exact hv
  · by_cases hc : c = []
    · simp [hc, hv]
    · simp only [if_neg hc]
      unfold combine_values_with_separator
      split
      · exact hc
      · simp [hc]

lemma foldl_combinePairStep_populated (sep : Str) (pairs : List (Str × Str)) :
    ∀ (m : RecMap) (key v : Str), mlookup m key = some v → v ≠ [] →
      ∃ w, mlookup (pairs.foldl (combinePairStep sep) m) key = some w ∧ w ≠ [] := by
  induction pairs with
  | nil => intro m key v h hv; exact ⟨v, h, hv⟩
  | cons kv rest ih =>
    intro m key v h hv
    simp only [List.foldl_cons]
    rcases hstep : mlookup (combinePairStep sep m kv) key with _ | w
    · rw [combinePairStep_lookup] at hstep
      split at hstep
      · exact absurd hstep (by simp)
      · rw [h] at hstep; exact absurd hstep (by simp)
    · refine ih _ key w hstep ?_
      rw [combinePairStep_lookup] at hstep
      split at hstep
      · rename_i hcond
        injection hstep with hstep
        exact hstep ▸ stepVal_ne_nil sep _ _ hcond.2
      · rw [h] at hstep
        injection hstep with hstep
        exact hstep ▸ hv

lemma foldl_combinePairStep_all_populated (sep : Str) (pairs : List (Str × Str)) :
    ∀ (m : RecMap), (∀ key v, mlookup m key = some v → v ≠ []) →
      ∀ key v, mlookup (pairs.foldl (combinePairStep sep) m) key = some v → v ≠ [] := by
  induction pairs with
  | nil => intro m hm key v h; exact hm key v h
  | cons kv rest ih =>
    intro m hm key v h
    simp only [List.foldl_cons] at h
    refine ih _ ?_ key v h
    intro key2 v2 h2
    rw [combinePairStep_lookup] at h2
    split at h2
    · rename_i hcond
      injection h2 with h2
      exact h2 ▸ stepVal_ne_nil sep _ _ hcond.2
    · exact hm key2 v2 h2

lemma combinedData_all_populated (sep : Str) (rs : List ChunkResult) :
    ∀ key v, mlookup (combinedData sep rs) key = some v → v ≠ [] := by
  unfold combinedData
  generalize (rs.filter chunkOk) = l
  induction l using List.reverseRecOn with
  | nil => intro key v h; simp [mlookup] at h
  | append_singleton l r ih =>
    intro key v h
    rw [List.foldl_append] at h
    simp only [List.foldl_cons, List.foldl_nil] at h
    exact foldl_combinePairStep_all_populated sep r.extracted_data _ ih key v h

/-- C5: during `combine_chunk_results`, a field that already holds a nonempty
value stays populated through every later pair and chunk — the per-pair merge
step never replaces a nonempty cell by an empty one — and consequently every
field of the combined data is nonempty. -/
theorem C5_populated_fields_stay_populated (sep : Str) (pairs : List (Str × Str))
    (m : RecMap) (key v : Str) (hm : mlookup m key = some v) (hv : v ≠ []) :
    (∃ w, mlookup (pairs.foldl (combinePairStep sep) m) key = some w ∧ w ≠ []) ∧
    (∀ (rs : List ChunkResult) (d : RecMap) (key2 w2 : Str),
      (combine_chunk_results rs sep).transformed_data = some d →
      mlookup d key2 = some w2 → w2 ≠ []) := by
  refine ⟨foldl_combinePairStep_populated sep pairs m key v hm hv, ?_⟩
  intro rs d key2 w2 hd hl
  unfold combine_chunk_results at hd
  split at hd
  · exact absurd hd (by simp)
  · simp only [Option.some.injEq] at hd
    exact combinedData_all_populated sep rs key2 w2 (hd ▸ hl)

/-- C5 witness: a populated field (`k ↦ x`) survives a later empty value for
the same key, both at the pair level and through the whole combination. -/
theorem C5_populated_fields_stay_populated_witness :
    (∃ w, mlookup ([((("k").toList, (" ").toList))].foldl
        (combinePairStep DEFAULT_CELL_SEPARATOR) [(("k").toList, ("x").toList)])
        (("k").toList) = some w ∧ w ≠ []) ∧
    (∀ (rs : List ChunkResult) (d : RecMap) (key2 w2 : Str),
      (combine_chunk_results rs DEFAULT_CELL_SEPARATOR).transformed_data = some d →
      mlookup d key2 = some w2 → w2 ≠ []) :=
  C5_populated_fields_stay_populated DEFAULT_CELL_SEPARATOR
    [((("k").toList, (" ").toList))] [(("k").toList, ("x").toList)]
    (("k").toList) (("x").toList) (by decide) (by decide)

/-! ### C4: order-(in)dependence of the merge

`joinC c segs` is the separator-joined cell a merge state always has;
the lemmas below show that for a single-character separator and
separator-free segments, splitting is a retraction of joining, so the merge
state is faithfully a list of segments. -/

def joinC (c : Char) : List Str → Str
  | [] => []
  | [s] => s
  | s :: s2 :: rest => s ++ c :: joinC c (s2 :: rest)

lemma goSplitF_fuel_irrel (sep : Str) :
    ∀ f1 f2 s, s.length ≤ f1 → s.length ≤ f2 → goSplitF sep f1 s = goSplitF sep f2 s := by
  intro f1
  induction f1 with
  | zero =>
    intro f2 s h1 _
    have : s = [] := List.length_eq_zero.mp (by omega)
    subst this
    cases f2 <;> simp [goSplitF]
  | succ n ih =>
    intro f2 s h1 h2
    cases s with
    | nil => cases f2 <;> simp [goSplitF]
    | cons x xs =>
      cases f2 with
      | zero => simp at h2
      | succ m =>
        simp only [goSplitF]
        by_cases hp : sep.isPrefixOf (x :: xs)
        · rw [if_pos hp, if_pos hp]
          have hd : (xs.drop (sep.length - 1)).length ≤ xs.length := by
            simp [List.length_drop]
          simp only [List.length_cons] at h1 h2
          rw [ih m _ (by omega) (by omega)]
        · rw [if_neg hp, if_neg hp]
          simp only [List.length_cons] at h1 h2
          rw [ih m xs (by omega) (by omega)]

lemma splitOnL_single_cons_eq (c : Char) (x : Str) (xs : Str) :
    splitOnL [c] (x ++ xs) = goSplitF [c] (x ++ xs).length (x ++ xs) := by
  unfold splitOnL
  simp

lemma splitOnL_nosep (c : Char) (s : Str) (h : c ∉ s) : splitOnL [c] s = [s] := by
  induction s with
  | nil => simp [splitOnL, goSplitF]
  | cons x xs ih =>
    have hx : x ≠ c := fun hh => h (hh ▸ List.mem_cons_self x xs)
    have hxs : c ∉ xs := fun hh => h (List.mem_cons_of_mem x hh)
    unfold splitOnL at ih ⊢
    simp only [reduceCtorEq, if_false, List.length_cons] at ih ⊢
    simp only [goSplitF]
    have hp : ¬ ([c].isPrefixOf (x :: xs)) := by
      simp only [List.isPrefixOf, Bool.and_eq_true, beq_iff_eq]
      exact fun hh => hx hh.1.symm
    rw [if_neg hp, ih hxs]

lemma splitOnL_break (c : Char) (s t : Str) (h : c ∉ s) :
    splitOnL [c] (s ++ c :: t) = s :: splitOnL [c] t := by
  induction s with
  | nil =>
    unfold splitOnL
    simp only [reduceCtorEq, if_false, List.nil_append, List.length_cons]
    simp only [goSplitF]
    have hp : [c].isPrefixOf (c :: t) := by simp [List.isPrefixOf]
    rw [if_pos hp]
    simp only [List.length_singleton, Nat.sub_self, List.drop_zero]
  | cons x xs ih =>
    have hx : x ≠ c := fun hh => h (hh ▸ List.mem_cons_self x xs)
    have hxs : c ∉ xs := fun hh => h (List.mem_cons_of_mem x hh)
    unfold splitOnL at ih ⊢
    simp only [reduceCtorEq, if_false, List.cons_append, List.length_cons,
      List.length_append] at ih ⊢
    simp only [goSplitF]
    have hp : ¬ ([c].isPrefixOf (x :: (xs ++ c :: t))) := by
      simp only [List.isPrefixOf, Bool.and_eq_true, beq_iff_eq]
      exact fun hh => hx hh.1.symm
    rw [if_neg hp]
    have ih2 := ih hxs
    simp only [List.length_append, List.length_cons] at ih2
    rw [ih2]

lemma joinC_roundtrip (c : Char) :
    ∀ segs : List Str, segs ≠ [] → (∀ x ∈ segs, c ∉ x) →
      splitOnL [c] (joinC c segs) = segs := by
  intro segs
  induction segs with
  | nil => intro h; exact absurd rfl h
  | cons s rest ih =>
    intro _ hfree
    cases rest with
    | nil =>
      simp only [joinC]
      exact splitOnL_nosep c s (hfree s (List.mem_cons_self s []))
    | cons s2 rest2 =>
      simp only [joinC]
      rw [splitOnL_break c s _ (hfree s (List.mem_cons_self _ _))]
      rw [ih (by simp) (fun x hx => hfree x (List.mem_cons_of_mem s hx))]

lemma joinC_append_one (c : Char) :
    ∀ (segs : List Str), segs ≠ [] → ∀ v, joinC c (segs ++ [v]) = joinC c segs ++ c :: v := by
  intro segs
  induction segs with
  | nil => intro h; exact absurd rfl h
  | cons s rest ih =>
    intro _ v
    cases rest with
    | nil => simp [joinC]
    | cons s2 rest2 =>
      calc joinC c ((s :: s2 :: rest2) ++ [v])
          = s ++ c :: joinC c ((s2 :: rest2) ++ [v]) := by
            simp only [List.cons_append, joinC, List.append_eq]
        _ = s ++ c :: (joinC c (s2 :: rest2) ++ c :: v) := by rw [ih (by simp) v]
        _ = (s ++ c :: joinC c (s2 :: rest2)) ++ c :: v := by simp
        _ = joinC c (s :: s2 :: rest2) ++ c :: v := by simp [joinC]

lemma joinC_ne_nil (c : Char) :
    ∀ segs : List Str, segs ≠ [] → (∀ x ∈ segs, x ≠ []) → joinC c segs ≠ [] := by
  intro segs
  cases segs with
  | nil => intro h; exact absurd rfl h
  | cons s rest =>
    intro _ hel
    cases rest with
    | nil => exact hel s (by simp)
    | cons s2 rest2 => simp [joinC]

lemma mem_joinC_of_two (c : Char) (s s2 : Str) (rest : List Str) :
    c ∈ joinC c (s :: s2 :: rest) := by
  simp [joinC]

/-- One merge update on a separator-free segment list is insert-if-absent. -/
lemma stepVal_joinC (c : Char) (segs : List Str) (v : Str)
    (hsegs : segs ≠ []) (helne : ∀ x ∈ segs, x ≠ []) (helc : ∀ x ∈ segs, c ∉ x)
    (_hv : v ≠ []) (hvc : c ∉ v) :
    stepVal [c] (some (joinC c segs)) v =
      joinC c (if v ∈ segs then segs else segs ++ [v]) := by
  simp only [stepVal]
  rw [if_neg (joinC_ne_nil c segs hsegs helne)]
  unfold combine_values_with_separator
  rw [joinC_roundtrip c segs hsegs helc]
  by_cases hmem : v ∈ segs
  · rw [if_pos (Or.inr hmem), if_pos hmem]
  · rw [if_neg hmem]
    have hne : v ≠ joinC c segs := by
      cases segs with
      | nil => exact absurd rfl hsegs
      | cons s rest =>
        cases rest with
        | nil =>
          simp only [joinC]
          intro hh
          exact hmem (hh ▸ List.mem_cons_self s [])
        | cons s2 rest2 =>
          intro hh
          exact hvc (hh ▸ mem_joinC_of_two c s s2 rest2)
    rw [if_neg (by simp [hne, hmem]), joinC_append_one c segs hsegs v]
    simp

def insertD (acc : List Str) (v : Str) : List Str := if v ∈ acc then acc else acc ++ [v]

lemma insertD_ne_nil (acc : List Str) (v : Str) (h : acc ≠ []) : insertD acc v ≠ [] := by
  unfold insertD; split
  · exact h
  · simp

lemma insertD_mem (acc : List Str) (v x : Str) (h : x ∈ insertD acc v) : x ∈ acc ∨ x = v := by
  unfold insertD at h
  split at h
  · exact Or.inl h
  · rcases List.mem_append.mp h with h | h
    · exact Or.inl h
    · exact Or.inr (by simpa using h)

lemma foldl_stepVal_joinC (c : Char) (vs : List Str) :
    ∀ segs : List Str, segs ≠ [] → (∀ x ∈ segs, x ≠ []) → (∀ x ∈ segs, c ∉ x) →
      (∀ v ∈ vs, v ≠ []) → (∀ v ∈ vs, c ∉ v) →
      vs.foldl (fun st v => some (stepVal [c] st v)) (some (joinC c segs)) =
        some (joinC c (vs.foldl insertD segs)) := by
  induction vs with
  | nil => intro segs _ _ _ _ _; rfl
  | cons v rest ih =>
    intro segs hsegs helne helc hvne hvc
    simp only [List.foldl_cons]
    rw [stepVal_joinC c segs v hsegs helne helc (hvne v (by simp)) (hvc v (by simp))]
    have hins : insertD segs v = if v ∈ segs then segs else segs ++ [v] := rfl
    rw [← hins]
    exact ih (insertD segs v) (insertD_ne_nil segs v hsegs)
      (fun x hx => (insertD_mem segs v x hx).elim (helne x) (fun he => he ▸ hvne v (by simp)))
      (fun x hx => (insertD_mem segs v x hx).elim (helc x) (fun he => he ▸ hvc v (by simp)))
      (fun x hx => hvne x (by simp [hx]))
      (fun x hx => hvc x (by simp [hx]))

lemma foldl_insertD_toFinset :
    ∀ (vs segs : List Str), (vs.foldl insertD segs).toFinset = segs.toFinset ∪ vs.toFinset := by
  intro vs
  induction vs with
  | nil => intro segs; simp
  | cons v rest ih =>
    intro segs
    simp only [List.foldl_cons, ih, List.toFinset_cons]
    have : (insertD segs v).toFinset = insert v segs.toFinset := by
      unfold insertD
      split
      · rename_i h
        rw [Finset.insert_eq_self.mpr (by simpa using h)]
      · simp [List.toFinset_append]
        rw [Finset.union_comm]
        rfl
    rw [this]
    ext x
    simp [or_comm, or_left_comm]

/-- The stream of trimmed nonempty values the merge feeds into one field. -/
def keyVals (key : Str) (pairs : List (Str × Str)) : List Str :=
  pairs.filterMap (fun kv =>
    if pyStrip kv.1 = key ∧ pyStrip kv.2 ≠ [] then some (pyStrip kv.2) else none)

/-- All `key, value` pairs the merge iterates over, in iteration order. -/
def allPairs (rs : List ChunkResult) : List (Str × Str) :=
  ((rs.filter chunkOk).map ChunkResult.extracted_data).flatten

lemma keyVals_cons_hit (key : Str) (kv : Str × Str) (rest : List (Str × Str))
    (h1 : pyStrip kv.1 = key) (h2 : pyStrip kv.2 ≠ []) :
    keyVals key (kv :: rest) = pyStrip kv.2 :: keyVals key rest := by
  unfold keyVals
  exact List.filterMap_cons_some (by rw [if_pos ⟨h1, h2⟩])

lemma keyVals_cons_miss (key : Str) (kv : Str × Str) (rest : List (Str × Str))
    (h : ¬ (pyStrip kv.1 = key ∧ pyStrip kv.2 ≠ [])) :
    keyVals key (kv :: rest) = keyVals key rest := by
  unfold keyVals
  exact List.filterMap_cons_none (by rw [if_neg h])

lemma lookup_foldl_keyVals (sep : Str) (pairs : List (Str × Str)) :
    ∀ (m : RecMap) (key : Str),
      mlookup (pairs.foldl (combinePairStep sep) m) key =
        (keyVals key pairs).foldl (fun st v => some (stepVal sep st v)) (mlookup m key) := by
  induction pairs with
  | nil => intro m key; rfl
  | cons kv rest ih =>
    intro m key
    simp only [List.foldl_cons]
    rw [ih (combinePairStep sep m kv) key, combinePairStep_lookup]
    by_cases hc : pyStrip kv.1 = key ∧ pyStrip kv.2 ≠ []
    · rw [if_pos hc, keyVals_cons_hit key kv rest hc.1 hc.2]
      simp only [List.foldl_cons]
    · rw [if_neg hc, keyVals_cons_miss key kv rest hc]

lemma combinedData_eq_allPairs (sep : Str) (rs : List ChunkResult) :
    combinedData sep rs = (allPairs rs).foldl (combinePairStep sep) [] := by
  unfold combinedData allPairs
  rw [List.foldl_flatten, List.foldl_map]

/-- The segment set of a field cell (empty for an absent field). -/
def segsOf (c : Char) : Option Str → Finset Str
  | none => ∅
  | some v => (splitOnL [c] v).toFinset

lemma lookup_combinedData_stream (c : Char) (rs : List ChunkResult) (key : Str) :
    mlookup (combinedData [c] rs) key =
      (keyVals key (allPairs rs)).foldl (fun st v => some (stepVal [c] st v)) none := by
  rw [combinedData_eq_allPairs, lookup_foldl_keyVals]
  rfl

lemma keyVals_mem (key : Str) (pairs : List (Str × Str)) (v : Str)
    (h : v ∈ keyVals key pairs) :
    v ≠ [] ∧ ∃ kv ∈ pairs, v = pyStrip kv.2 := by
  unfold keyVals at h
  obtain ⟨kv, hkv, hf⟩ := List.mem_filterMap.mp h
  split at hf
  · rename_i hcond
    injection hf with hf
    exact ⟨hf ▸ hcond.2, kv, hkv, hf.symm⟩
  · exact absurd hf (by simp)

lemma allPairs_mem (rs : List ChunkResult) (kv : Str × Str) (h : kv ∈ allPairs rs) :
    ∃ r ∈ rs, kv ∈ r.extracted_data := by
  unfold allPairs at h
  obtain ⟨dl, hdl, hkv⟩ := List.mem_flatten.mp h
  obtain ⟨r, hr, hre⟩ := List.mem_map.mp hdl
  exact ⟨r, (List.mem_filter.mp hr).1, hre ▸ hkv⟩

/-- `mset` with the already-present value is the identity. -/
lemma mset_lookup_eq (m : RecMap) (k v : Str) (h : mlookup m k = some v) :
    mset m k v = m := by
  induction m with
  | nil => simp [mlookup] at h
  | cons p rest ih =>
    rcases p with ⟨k0, v0⟩
    by_cases h0 : k0 = k
    · subst h0
      simp only [mlookup, if_pos rfl] at h
      injection h with h
      simp [mset, h]
    · simp only [mlookup, if_neg h0] at h
      simp [mset, h0, ih h]

lemma combinePairStep_fixed (sep : Str) (m : RecMap) (kv : Str × Str)
    (h : pyStrip kv.2 ≠ [] → mlookup m (pyStrip kv.1) = some (pyStrip kv.2)) :
    combinePairStep sep m kv = m := by
  unfold combinePairStep
  by_cases hv : pyStrip kv.2 = []
  · simp [hv]
  · rw [if_neg hv, h hv]
    simp only []
    rw [if_neg hv]
    unfold combine_values_with_separator
    rw [if_pos (Or.inl rfl)]
    exact mset_lookup_eq m _ _ (h hv)

lemma foldl_fixed (sep : Str) (pairs : List (Str × Str)) (m : RecMap)
    (h : ∀ kv ∈ pairs, pyStrip kv.2 ≠ [] → mlookup m (pyStrip kv.1) = some (pyStrip kv.2)) :
    pairs.foldl (combinePairStep sep) m = m := by
  induction pairs with
  | nil => rfl
  | cons kv rest ih =>
    simp only [List.foldl_cons]
    rw [combinePairStep_fixed sep m kv (h kv (by simp))]
    exact ih (fun kv2 h2 => h kv2 (by simp [h2]))

lemma keyVals_nil_of_no_key (key : Str) (pairs : List (Str × Str))
    (h : ∀ kv ∈ pairs, pyStrip kv.1 ≠ key) : keyVals key pairs = [] := by
  induction pairs with
  | nil => rfl
  | cons kv rest ih =>
    rw [keyVals_cons_miss key kv rest (fun hc => h kv (by simp) hc.1)]
    exact ih (fun kv2 h2 => h kv2 (by simp [h2]))

lemma keyVals_nodup_single (pairs : List (Str × Str))
    (hnd : (pairs.map (fun kv => pyStrip kv.1)).Nodup) :
    ∀ kv ∈ pairs, pyStrip kv.2 ≠ [] →
      keyVals (pyStrip kv.1) pairs = [pyStrip kv.2] := by
  induction pairs with
  | nil => intro kv h; simp at h
  | cons p rest ih =>
    intro kv hkv hv
    simp only [List.map_cons, List.nodup_cons] at hnd
    rcases List.mem_cons.mp hkv with hkv | hkv
    · subst hkv
      rw [keyVals_cons_hit _ kv rest rfl hv]
      rw [keyVals_nil_of_no_key _ rest ?_]
      intro kv2 h2 hc
      exact hnd.1 (hc ▸ List.mem_map.mpr ⟨kv2, h2, rfl⟩)
    · have hne : pyStrip p.1 ≠ pyStrip kv.1 := by
        intro hc
        exact hnd.1 (hc ▸ List.mem_map.mpr ⟨kv, hkv, rfl⟩)
      rw [keyVals_cons_miss _ p rest (fun hc => hne hc.1)]
      exact ih hnd.2 kv hkv hv

/-- C4 counterexample: the claim's order-independence fails as stated.  The
two-element lists `[A, B]` and `[B, A]` are permutations of each other, with
`A` contributing `k ↦ "a"` and `B` contributing `k ↦ "a;b"`, yet one order
merges to `"a;a;b"` and the other to `"a;b"` — not the same values even
modulo the order of the separator-joined segments (the segment multisets
`[a, a, b]` and `[a, b]` are no permutation of each other). -/
theorem C4_merge_not_order_independent_counterexample :
    ([(⟨("c1").toList, [], true, [((("k").toList, ("a").toList))], [], none, 0⟩ : ChunkResult),
      (⟨("c2").toList, [], true, [((("k").toList, ("a;b").toList))], [], none, 0⟩ : ChunkResult)].Perm
     [(⟨("c2").toList, [], true, [((("k").toList, ("a;b").toList))], [], none, 0⟩ : ChunkResult),
      (⟨("c1").toList, [], true, [((("k").toList, ("a").toList))], [], none, 0⟩ : ChunkResult)]) ∧
    (combine_chunk_results
      [⟨("c1").toList, [], true, [((("k").toList, ("a").toList))], [], none, 0⟩,
       ⟨("c2").toList, [], true, [((("k").toList, ("a;b").toList))], [], none, 0⟩]
      DEFAULT_CELL_SEPARATOR).transformed_data
      = some [((("k").toList, ("a;a;b").toList))] ∧
    (combine_chunk_results
      [⟨("c2").toList, [], true, [((("k").toList, ("a;b").toList))], [], none, 0⟩,
       ⟨("c1").toList, [], true, [((("k").toList, ("a").toList))], [], none, 0⟩]
      DEFAULT_CELL_SEPARATOR).transformed_data
      = some [((("k").toList, ("a;b").toList))] ∧
    ¬ (splitOnL DEFAULT_CELL_SEPARATOR (("a;a;b").toList)).Perm
        (splitOnL DEFAULT_CELL_SEPARATOR (("a;b").toList)) := by
  refine ⟨List.Perm.swap _ _ _, by decide, by decide, ?_⟩
  intro h
  exact absurd h.length_eq (by decide)

/-- C4 amended: with the default single-character cell separator, when no
extracted value contains the separator, combining permuted chunk lists yields
the same field set and, per field, the same set of separator-joined segments
(order-independence modulo segment order and duplicate suppression); and
combining a result with a copy of itself (its trimmed keys being distinct, as
Python dict keys are) changes nothing. -/
theorem C4_merge_order_independence_amended (c : Char) (l1 l2 : List ChunkResult)
    (hp : l1.Perm l2)
    (hfree : ∀ r ∈ l1, ∀ kv ∈ r.extracted_data, c ∉ pyStrip kv.2) :
    (∀ key, (mlookup (combinedData [c] l1) key).isSome
        = (mlookup (combinedData [c] l2) key).isSome) ∧
    (∀ key, segsOf c (mlookup (combinedData [c] l1) key)
        = segsOf c (mlookup (combinedData [c] l2) key)) ∧
    (∀ r : ChunkResult, (r.extracted_data.map (fun kv => pyStrip kv.1)).Nodup →
      (combine_chunk_results [r, r] [c]).transformed_data
        = (combine_chunk_results [r] [c]).transformed_data) := by
  have hap : (allPairs l1).Perm (allPairs l2) :=
    List.Perm.flatten (List.Perm.map _ (List.Perm.filter _ hp))
  have hfree2 : ∀ r ∈ l2, ∀ kv ∈ r.extracted_data, c ∉ pyStrip kv.2 :=
    fun r hr => hfree r (hp.mem_iff.mpr hr)
  have hstrprop : ∀ (l : List ChunkResult),
      (∀ r ∈ l, ∀ kv ∈ r.extracted_data, c ∉ pyStrip kv.2) →
      ∀ key, ∀ v ∈ keyVals key (allPairs l), v ≠ [] ∧ c ∉ v := by
    intro l hl key v hv
    obtain ⟨hne, kv, hkv, hveq⟩ := keyVals_mem key (allPairs l) v hv
    obtain ⟨r, hr, hkvr⟩ := allPairs_mem l kv hkv
    exact ⟨hne, hveq ▸ hl r hr kv hkvr⟩
  have hchar : ∀ (l : List ChunkResult),
      (∀ r ∈ l, ∀ kv ∈ r.extracted_data, c ∉ pyStrip kv.2) →
      ∀ key, mlookup (combinedData [c] l) key =
        match keyVals key (allPairs l) with
        | [] => none
        | v :: vs => some (joinC c (vs.foldl insertD [v])) := by
    intro l hl key
    rw [lookup_combinedData_stream]
    rcases hk : keyVals key (allPairs l) with _ | ⟨v, vs⟩
    · rfl
    · have hels := hstrprop l hl key
      rw [hk] at hels
      simp only [List.foldl_cons]
      have h1 : stepVal [c] none v = v := rfl
      rw [h1]
      have hjv : v = joinC c [v] := rfl
      rw [show (some v) = some (joinC c [v]) from rfl]
      exact foldl_stepVal_joinC c vs [v] (by simp)
        (by intro x hx; simp at hx; exact hx ▸ (hels v (by simp)).1)
        (by intro x hx; simp at hx; exact hx ▸ (hels v (by simp)).2)
        (fun x hx => (hels x (by simp [hx])).1)
        (fun x hx => (hels x (by simp [hx])).2)
  refine ⟨?_, ?_, ?_⟩
  · intro key
    have hperm : (keyVals key (allPairs l1)).Perm (keyVals key (allPairs l2)) :=
      List.Perm.filterMap _ hap
    rw [hchar l1 hfree key, hchar l2 hfree2 key]
    rcases h1 : keyVals key (allPairs l1) with _ | ⟨v, vs⟩ <;>
      rcases h2 : keyVals key (allPairs l2) with _ | ⟨w, ws⟩
    · rfl
    · rw [h1, h2] at hperm; exact absurd hperm.symm (by simp)
    · rw [h1, h2] at hperm; exact absurd hperm (by simp)
    · rfl
  · intro key
    have hperm : (keyVals key (allPairs l1)).Perm (keyVals key (allPairs l2)) :=
      List.Perm.filterMap _ hap
    rw [hchar l1 hfree key, hchar l2 hfree2 key]
    rcases h1 : keyVals key (allPairs l1) with _ | ⟨v, vs⟩ <;>
      rcases h2 : keyVals key (allPairs l2) with _ | ⟨w, ws⟩
    · rfl
    · rw [h1, h2] at hperm; exact absurd hperm.symm (by simp)
    · rw [h1, h2] at hperm; exact absurd hperm (by simp)
    · rw [h1, h2] at hperm
      have hels1 := hstrprop l1 hfree key
      have hels2 := hstrprop l2 hfree2 key
      rw [h1] at hels1
      rw [h2] at hels2
      simp only [segsOf]
      have hr1 : splitOnL [c] (joinC c (vs.foldl insertD [v])) = vs.foldl insertD [v] := by
        refine joinC_roundtrip c _ ?_ ?_
        · intro hnil
          have h0 := foldl_insertD_toFinset vs [v]
          rw [hnil] at h0
          have hv0 : v ∈ (([] : List Str)).toFinset := by rw [h0]; simp
          simp at hv0
        · intro x hx
          have h0 : x ∈ (vs.foldl insertD [v]).toFinset := by simpa using hx
          rw [foldl_insertD_toFinset] at h0
          have hxf : x = v ∨ x ∈ vs := by simpa using h0
          rcases hxf with rfl | hxf
          · exact (hels1 x (by simp)).2
          · exact (hels1 x (by simp [hxf])).2
      have hr2 : splitOnL [c] (joinC c (ws.foldl insertD [w])) = ws.foldl insertD [w] := by
        refine joinC_roundtrip c _ ?_ ?_
        · intro hnil
          have h0 := foldl_insertD_toFinset ws [w]
          rw [hnil] at h0
          have hw0 : w ∈ (([] : List Str)).toFinset := by rw [h0]; simp
          simp at hw0
        · intro x hx
          have h0 : x ∈ (ws.foldl insertD [w]).toFinset := by simpa using hx
          rw [foldl_insertD_toFinset] at h0
          have hxf : x = w ∨ x ∈ ws := by simpa using h0
          rcases hxf with rfl | hxf
          · exact (hels2 x (by simp)).2
          · exact (hels2 x (by simp [hxf])).2
      rw [hr1, hr2, foldl_insertD_toFinset, foldl_insertD_toFinset]
      have hfin : (v :: vs).toFinset = (w :: ws).toFinset :=
        List.toFinset_eq_of_perm _ _ hperm
      simp only [List.toFinset_cons] at hfin
      simpa using hfin
  · intro r hnd
    by_cases hok : chunkOk r = true
    · have hf2 : List.filter chunkOk [r, r] = [r, r] := by
        simp [List.filter_cons, List.filter_nil, hok]
      have hf1 : List.filter chunkOk [r] = [r] := by
        simp [List.filter_cons, List.filter_nil, hok]
      unfold combine_chunk_results combinedData
      rw [hf2, hf1]
      simp only [List.isEmpty_cons, Bool.false_eq_true, if_false, List.foldl_cons,
        List.foldl_nil, Option.some.injEq]
      refine foldl_fixed [c] r.extracted_data _ ?_
      intro kv hkv hv
      rw [lookup_foldl_keyVals, keyVals_nodup_single r.extracted_data hnd kv hkv hv]
      rfl
    · have hok2 : chunkOk r = false := by revert hok; cases chunkOk r <;> simp
      have hf2 : List.filter chunkOk [r, r] = [] := by
        simp [List.filter_cons, List.filter_nil, hok2]
      have hf1 : List.filter chunkOk [r] = [] := by
        simp [List.filter_cons, List.filter_nil, hok2]
      unfold combine_chunk_results
      rw [hf2, hf1]
      simp

/-- C4 witness: the amended theorem at the one-element list whose single
chunk extracts `k ↦ a`, with both hypotheses discharged. -/
theorem C4_merge_order_independence_amended_witness :
    (∀ key, (mlookup (combinedData [';']
        [(⟨("c1").toList, [], true, [((("k").toList, ("a").toList))], [], none, 0⟩ : ChunkResult)]) key).isSome
      = (mlookup (combinedData [';']
        [(⟨("c1").toList, [], true, [((("k").toList, ("a").toList))], [], none, 0⟩ : ChunkResult)]) key).isSome) ∧
    (∀ key, segsOf ';' (mlookup (combinedData [';']
        [(⟨("c1").toList, [], true, [((("k").toList, ("a").toList))], [], none, 0⟩ : ChunkResult)]) key)
      = segsOf ';' (mlookup (combinedData [';']
        [(⟨("c1").toList, [], true, [((("k").toList, ("a").toList))], [], none, 0⟩ : ChunkResult)]) key)) ∧
    (∀ r : ChunkResult, (r.extracted_data.map (fun kv => pyStrip kv.1)).Nodup →
      (combine_chunk_results [r, r] [';']).transformed_data
        = (combine_chunk_results [r] [';']).transformed_data) :=
  C4_merge_order_independence_amended ';'
    [(⟨("c1").toList, [], true, [((("k").toList, ("a").toList))], [], none, 0⟩ : ChunkResult)]
    [(⟨("c1").toList, [], true, [((("k").toList, ("a").toList))], [], none, 0⟩ : ChunkResult)]
    (List.Perm.refl _) (by decide)

/-! ### `DataTransformer.normalize_field_values` (lines 614-687) -/

/-- Regex `\b(19|20)\d{2}\b` (line 652). -/
def yearPat : RE :=
  .seq .bnd (.seq (.grp 1 (.alt (rstr "19") (rstr "20"))) (.seq rdigit (.seq rdigit .bnd)))

/-- `re.search(r'\b(19|20)\d{2}\b', s)` and `match.group()` — the whole
matched token. -/
def findYear (s : Str) : Option Str := (research yearPat s).map Found.matched

/-- `re.sub(r'\s+', ' ', s)` (line 662) with explicit fuel (each step
consumes at least one character). -/
def collapseWSF : Nat → Str → Str
  | _, [] => []
  | 0, s => s
  | fuel + 1, c :: cs =>
    if isPySpace c then ' ' :: collapseWSF fuel (cs.dropWhile isPySpace)
    else c :: collapseWSF fuel cs

def collapseWS (s : Str) : Str := collapseWSF s.length s

def sNameDerMine : Str := ("Name der Mine").toList

def sJahr : Str := ("Jahr").toList

def sKosten : Str := ("Kosten").toList

/-- The key under which one entry is written (lines 630-667): an entry with a
falsy value keeps its original key (line 631!); every other entry is written
under its trimmed key. -/
def processedKey (kv : Str × Str) : Str := if kv.2 = [] then kv.1 else pyStrip kv.1

/-- The value one entry is given, following the branch order of lines
630-667: falsy values become the empty string; keys containing the mine-name
keyword pass the trimmed value through (both source branches assign
`normalized_value`; the `MineNameProcessor` comparison in between does not
change the outcome); year-keyword keys are reduced to the first
`19xx`/`20xx` token when one exists; cost keys get whitespace runs collapsed;
everything else passes through trimmed. -/
def nfvValue (kv : Str × Str) : Str :=
  if kv.2 = [] then []
  else
    if isSubL sNameDerMine (pyStrip kv.1) ∧ pyStrip kv.2 ≠ [] then pyStrip kv.2
    else if isSubL sJahr (pyStrip kv.1) ∧ pyStrip kv.2 ≠ [] then
      match findYear (pyStrip kv.2) with
      | some y => y
      | none => pyStrip kv.2
    else if isSubL sKosten (pyStrip kv.1) ∧ pyStrip kv.2 ≠ [] then collapseWS (pyStrip kv.2)
    else pyStrip kv.2

/-- `f"Kein gültiges Jahr in '{key}': '{value}'"` (line 657). -/
def yearWarning (nk nv : Str) : Str :=
  ("Kein gültiges Jahr in '").toList ++ nk ++ ("': '").toList ++ nv ++ ("'").toList

/-- The warnings one entry contributes (line 657: only the year branch with
no year token warns). -/
def nfvWarns (kv : Str × Str) : List Str :=
  if kv.2 ≠ [] ∧ ¬ (isSubL sNameDerMine (pyStrip kv.1) ∧ pyStrip kv.2 ≠ [])
      ∧ (isSubL sJahr (pyStrip kv.1) ∧ pyStrip kv.2 ≠ [])
      ∧ findYear (pyStrip kv.2) = none
  then [yearWarning (pyStrip kv.1) (pyStrip kv.2)] else []

/-- One iteration of the normalization loop (lines 629-667). -/
def nfvStep (acc : RecMap × List Str) (kv : Str × Str) : RecMap × List Str :=
  (mset acc.1 (processedKey kv) (nfvValue kv), acc.2 ++ nfvWarns kv)

/-- `DataTransformer.normalize_field_values` (lines 614-687). -/
def normalize_field_values (data : RecMap) : TransformationResult :=
  { success := true,
    transformed_data := some (data.foldl nfvStep ([], [])).1,
    warnings := (data.foldl nfvStep ([], [])).2,
    metadata := [(("normalized_fields").toList, (data.foldl nfvStep ([], [])).1.length),
                 (("empty_fields").toList,
                  ((data.foldl nfvStep ([], [])).1.filter (fun p => p.2.isEmpty)).length)] }

lemma nfv_fold_lookup_other (pairs : List (Str × Str)) :
    ∀ (acc : RecMap × List Str) (key : Str), (∀ kv ∈ pairs, processedKey kv ≠ key) →
      mlookup (pairs.foldl nfvStep acc).1 key = mlookup acc.1 key := by
  induction pairs with
  | nil => intro acc key _; rfl
  | cons kv rest ih =>
    intro acc key h
    simp only [List.foldl_cons]
    rw [ih _ key (fun kv2 h2 => h kv2 (by simp [h2]))]
    exact mlookup_mset_ne acc.1 _ _ key (h kv (by simp))

lemma nfv_fold_warnings (pairs : List (Str × Str)) :
    ∀ (acc : RecMap × List Str),
      (pairs.foldl nfvStep acc).2 = acc.2 ++ (pairs.map nfvWarns).flatten := by
  induction pairs with
  | nil => intro acc; simp
  | cons kv rest ih =>
    intro acc
    simp only [List.foldl_cons, ih, nfvStep, List.map_cons, List.flatten_cons,
      List.append_assoc]

lemma nfv_fold_lookup_member (pairs : List (Str × Str)) :
    ∀ (acc : RecMap × List Str), (pairs.map processedKey).Nodup →
      ∀ kv ∈ pairs,
        mlookup (pairs.foldl nfvStep acc).1 (processedKey kv) = some (nfvValue kv) := by
  induction pairs with
  | nil => intro acc _ kv h; simp at h
  | cons p rest ih =>
    intro acc hnd kv hkv
    simp only [List.map_cons, List.nodup_cons] at hnd
    simp only [List.foldl_cons]
    rcases List.mem_cons.mp hkv with hkv | hkv
    · subst hkv
      rw [nfv_fold_lookup_other rest _ (processedKey kv) ?_]
      · exact mlookup_mset_self acc.1 _ _
      · intro kv2 h2 hc
        exact hnd.1 (hc ▸ List.mem_map.mpr ⟨kv2, h2, rfl⟩)
    · exact ih _ hnd.2 kv hkv

lemma mem_mset (m : RecMap) (k v : Str) (p : Str × Str) (h : p ∈ mset m k v) :
    p = (k, v) ∨ p ∈ m := by
  induction m with
  | nil => simpa [mset] using h
  | cons q rest ih =>
    rcases q with ⟨k0, v0⟩
    by_cases h0 : k0 = k
    · subst h0
      simp only [mset, if_pos rfl] at h
      rcases List.mem_cons.mp h with h | h
      · exact Or.inl h
      · exact Or.inr (List.mem_cons_of_mem _ h)
    · simp only [mset, if_neg h0] at h
      rcases List.mem_cons.mp h with h | h
      · exact Or.inr (h ▸ List.mem_cons_self _ _)
      · rcases ih h with h | h
        · exact Or.inl h
        · exact Or.inr (List.mem_cons_of_mem _ h)

lemma dropWhile_eq_self_of_prefix (p : Char → Bool) (r l : Str)
    (hpre : r <+: l) (hl : l.dropWhile p = l) : r.dropWhile p = r := by
  cases r with
  | nil => rfl
  | cons x xs =>
    obtain ⟨rest, hrest⟩ := hpre
    rw [← hrest] at hl
    simp only [List.cons_append] at hl
    rw [List.dropWhile_cons] at hl ⊢
    split at hl
    · have := congrArg List.length hl
      simp only [List.length_cons] at this
      have h2 : (List.dropWhile p (xs ++ rest)).length ≤ (xs ++ rest).length :=
        (List.dropWhile_suffix p).sublist.length_le
      omega
    · rename_i hpx
      rw [if_neg hpx]

/-- `pyStrip` is idempotent. -/
lemma pyStrip_idem (s : Str) : pyStrip (pyStrip s) = pyStrip s := by
  unfold pyStrip
  set t := s.dropWhile isPySpace with ht
  have htt : t.dropWhile isPySpace = t := by rw [ht]; exact List.dropWhile_idempotent _ _
  set r := (t.reverse.dropWhile isPySpace).reverse with hr
  have hrpre : r <+: t := by
    rw [hr]
    have h1 : (t.reverse.dropWhile isPySpace) <:+ t.reverse := List.dropWhile_suffix _
    have h2 := List.reverse_prefix.mpr h1
    rwa [List.reverse_reverse] at h2
  have hrd : r.dropWhile isPySpace = r := dropWhile_eq_self_of_prefix _ r t hrpre htt
  rw [hrd, hr]
  rw [List.reverse_reverse, List.dropWhile_idempotent]

lemma nfv_fold_entry_shape (pairs : List (Str × Str)) :
    ∀ (acc : RecMap × List Str),
      (∀ p ∈ acc.1, p.2 = [] ∨ p.1 = pyStrip p.1) →
      ∀ p ∈ (pairs.foldl nfvStep acc).1, p.2 = [] ∨ p.1 = pyStrip p.1 := by
  induction pairs with
  | nil => intro acc h p hp; exact h p hp
  | cons kv rest ih =>
    intro acc hacc p hp
    simp only [List.foldl_cons] at hp
    refine ih _ ?_ p hp
    intro q hq
    rcases mem_mset _ _ _ _ hq with hq | hq
    · subst hq
      by_cases h2 : kv.2 = []
      · left
        simp [nfvValue, h2]
      · right
        simp [processedKey, h2, pyStrip_idem]
    · exact hacc q hq

/-- C7 counterexample: the claim says every key of the output is trimmed,
fields with empty values included; but an entry whose value is empty keeps
its original, untrimmed key (`normalized_data[key] = ""` at line 631 uses the
raw key), so the input `{" K ": ""}` yields the untrimmed output key `" K "`. -/
theorem C7_empty_value_key_not_trimmed_counterexample :
    (normalize_field_values [(((" K ").toList, ([] : Str)))]).transformed_data
      = some [(((" K ").toList, ([] : Str)))] ∧
    pyStrip ((" K ").toList) ≠ (" K ").toList := by
  exact ⟨by decide, by decide⟩

/-- C7 amended: `normalize_field_values` writes every entry with a nonempty
original value under its trimmed key (entries with empty values keep their
original key and get the empty string); when the processed keys of the input
are distinct (as Python dict keys are after processing), the per-field rules
are case-sensitive substring tests on the trimmed key, in branch order: a
key containing `Jahr` (but not `Name der Mine`) is reduced to the first
`19xx`/`20xx` token when one exists and otherwise kept trimmed with a warning
recorded; a key containing `Kosten` (but neither of the above) gets its
whitespace runs collapsed to single spaces; every other field — differently
spelled or differently cased year/cost words included — passes through
trimmed. -/
theorem C7_normalize_field_values_amended (data : List (Str × Str))
    (hnd : (data.map processedKey).Nodup) :
    (normalize_field_values data).success = true ∧
    (∀ p ∈ ((normalize_field_values data).transformed_data.getD []),
      p.2 = [] ∨ p.1 = pyStrip p.1) ∧
    (∀ kv ∈ data, kv.2 ≠ [] →
      mlookup ((normalize_field_values data).transformed_data.getD []) (pyStrip kv.1)
        = some (nfvValue kv)) ∧
    (∀ kv ∈ data, kv.2 ≠ [] →
      isSubL sJahr (pyStrip kv.1) = true → isSubL sNameDerMine (pyStrip kv.1) = false →
      pyStrip kv.2 ≠ [] →
      ((∀ y, findYear (pyStrip kv.2) = some y →
        mlookup ((normalize_field_values data).transformed_data.getD []) (pyStrip kv.1)
          = some y) ∧
       (findYear (pyStrip kv.2) = none →
        mlookup ((normalize_field_values data).transformed_data.getD []) (pyStrip kv.1)
            = some (pyStrip kv.2) ∧
          yearWarning (pyStrip kv.1) (pyStrip kv.2) ∈ (normalize_field_values data).warnings))) ∧
    (∀ kv ∈ data, kv.2 ≠ [] →
      isSubL sKosten (pyStrip kv.1) = true → isSubL sJahr (pyStrip kv.1) = false →
      isSubL sNameDerMine (pyStrip kv.1) = false → pyStrip kv.2 ≠ [] →
      mlookup ((normalize_field_values data).transformed_data.getD []) (pyStrip kv.1)
        = some (collapseWS (pyStrip kv.2))) ∧
    (∀ kv ∈ data, kv.2 ≠ [] →
      isSubL sJahr (pyStrip kv.1) = false → isSubL sKosten (pyStrip kv.1) = false →
      pyStrip kv.2 ≠ [] →
      mlookup ((normalize_field_values data).transformed_data.getD []) (pyStrip kv.1)
        = some (pyStrip kv.2)) := by
  have hdata : (normalize_field_values data).transformed_data.getD []
      = (data.foldl nfvStep ([], [])).1 := rfl
  have hmember : ∀ kv ∈ data, kv.2 ≠ [] →
      mlookup ((normalize_field_values data).transformed_data.getD []) (pyStrip kv.1)
        = some (nfvValue kv) := by
    intro kv hkv h2
    rw [hdata]
    have := nfv_fold_lookup_member data ([], []) hnd kv hkv
    rwa [show processedKey kv = pyStrip kv.1 from by simp [processedKey, h2]] at this
  refine ⟨rfl, ?_, hmember, ?_, ?_, ?_⟩
  · rw [hdata]
    exact nfv_fold_entry_shape data ([], []) (by simp)
  · intro kv hkv h2 hjahr hname hnv
    have hval := hmember kv hkv h2
    constructor
    · intro y hy
      rw [hval]
      simp only [nfvValue, if_neg h2, hy]
      rw [if_neg (by simp [hname]), if_pos ⟨hjahr, hnv⟩]
    · intro hy
      constructor
      · rw [hval]
        simp only [nfvValue, if_neg h2, hy]
        rw [if_neg (by simp [hname]), if_pos ⟨hjahr, hnv⟩]
      · show _ ∈ (data.foldl nfvStep ([], [])).2
        rw [nfv_fold_warnings data ([], [])]
        simp only [List.nil_append]
        refine List.mem_flatten.mpr ⟨nfvWarns kv, List.mem_map.mpr ⟨kv, hkv, rfl⟩, ?_⟩
        unfold nfvWarns
        rw [if_pos ⟨h2, by simp [hname], ⟨hjahr, hnv⟩, hy⟩]
        simp
  · intro kv hkv h2 hkosten hjahr hname hnv
    rw [hmember kv hkv h2]
    simp only [nfvValue, if_neg h2]
    rw [if_neg (by simp [hname]), if_neg (by simp [hjahr]), if_pos ⟨hkosten, hnv⟩]
  · intro kv hkv h2 hjahr hkosten hnv
    rw [hmember kv hkv h2]
    simp only [nfvValue, if_neg h2]
    by_cases hname : isSubL sNameDerMine (pyStrip kv.1) = true
    · rw [if_pos ⟨hname, hnv⟩]
    · rw [if_neg (by simp [hname]), if_neg (by simp [hjahr]), if_neg (by simp [hkosten])]

/-- C7 witness: the amended theorem at a two-entry map (a year field holding
`Bericht 2019` and a cost field with doubled blanks), hypothesis discharged. -/
theorem C7_normalize_field_values_amended_witness :
    (normalize_field_values [((("Jahr").toList, ("Bericht 2019").toList)),
        ((("Kosten").toList, ("1  2").toList))]).success = true ∧
    (∀ p ∈ ((normalize_field_values [((("Jahr").toList, ("Bericht 2019").toList)),
        ((("Kosten").toList, ("1  2").toList))]).transformed_data.getD []),
      p.2 = [] ∨ p.1 = pyStrip p.1) ∧
    (∀ kv ∈ [((("Jahr").toList, ("Bericht 2019").toList)),
        ((("Kosten").toList, ("1  2").toList))], kv.2 ≠ [] →
      mlookup ((normalize_field_values [((("Jahr").toList, ("Bericht 2019").toList)),
        ((("Kosten").toList, ("1  2").toList))]).transformed_data.getD []) (pyStrip kv.1)
        = some (nfvValue kv)) ∧
    (∀ kv ∈ [((("Jahr").toList, ("Bericht 2019").toList)),
        ((("Kosten").toList, ("1  2").toList))], kv.2 ≠ [] →
      isSubL sJahr (pyStrip kv.1) = true → isSubL sNameDerMine (pyStrip kv.1) = false →
      pyStrip kv.2 ≠ [] →
      ((∀ y, findYear (pyStrip kv.2) = some y →
        mlookup ((normalize_field_values [((("Jahr").toList, ("Bericht 2019").toList)),
          ((("Kosten").toList, ("1  2").toList))]).transformed_data.getD []) (pyStrip kv.1)
          = some y) ∧
       (findYear (pyStrip kv.2) = none →
        mlookup ((normalize_field_values [((("Jahr").toList, ("Bericht 2019").toList)),
          ((("Kosten").toList, ("1  2").toList))]).transformed_data.getD []) (pyStrip kv.1)
            = some (pyStrip kv.2) ∧
          yearWarning (pyStrip kv.1) (pyStrip kv.2) ∈
            (normalize_field_values [((("Jahr").toList, ("Bericht 2019").toList)),
              ((("Kosten").toList, ("1  2").toList))]).warnings))) ∧
    (∀ kv ∈ [((("Jahr").toList, ("Bericht 2019").toList)),
        ((("Kosten").toList, ("1  2").toList))], kv.2 ≠ [] →
      isSubL sKosten (pyStrip kv.1) = true → isSubL sJahr (pyStrip kv.1) = false →
      isSubL sNameDerMine (pyStrip kv.1) = false → pyStrip kv.2 ≠ [] →
      mlookup ((normalize_field_values [((("Jahr").toList, ("Bericht 2019").toList)),
        ((("Kosten").toList, ("1  2").toList))]).transformed_data.getD []) (pyStrip kv.1)
        = some (collapseWS (pyStrip kv.2))) ∧
    (∀ kv ∈ [((("Jahr").toList, ("Bericht 2019").toList)),
        ((("Kosten").toList, ("1  2").toList))], kv.2 ≠ [] →
      isSubL sJahr (pyStrip kv.1) = false → isSubL sKosten (pyStrip kv.1) = false →
      pyStrip kv.2 ≠ [] →
      mlookup ((normalize_field_values [((("Jahr").toList, ("Bericht 2019").toList)),
        ((("Kosten").toList, ("1  2").toList))]).transformed_data.getD []) (pyStrip kv.1)
        = some (pyStrip kv.2)) :=
  C7_normalize_field_values_amended
    [((("Jahr").toList, ("Bericht 2019").toList)), ((("Kosten").toList, ("1  2").toList))]
    (by decide)

/-! ### The orchestrator (`ProcessingOrchestrator`, lines 690-877)

Collaborator calls (API client, chunk execution, name matching, typed-record
construction, agent backfill) are supplied through `OrchEnv`; calls that can
raise in Python return `Except`.  Exceptions escaping the body are caught at
the top of `process_content` (lines 740-747). -/

/-- Modelled from the spec: `FileInfo`/FileContext (§3; models/data_models.py
portion not in the repository files). -/
structure FileInfo where
  file_basename : Str
  file_size : Nat := 0
  extracted_mine_id : Str := []
  extracted_date : Str := []
  potential_mine_names : List Str := []
deriving DecidableEq, Repr

/-- Modelled from the spec: a Record is a mapping from field label to string
value (§3). -/
abbrev MineData := RecMap

/-- Modelled from the spec: the `{success, content|error}` envelope of the
API client (§6). -/
structure APIResponse where
  success : Bool
  content : Str := []
  error_message : Str := []
deriving DecidableEq, Repr

/-- Modelled from the spec: `ProcessingResult`/ProcessingOutcome (§6). -/
structure ProcessingResult where
  file_info : FileInfo
  success : Bool
  mine_data : Option MineData := none
  error_message : Str := []
  processing_time : Option ℚ := none
  chunk_results : List ChunkResult := []
deriving DecidableEq, Repr

abbrev PyErr := Str

/-- The orchestrator's collaborators.  `transform` and `enhance` are total
because their sources catch internally and return envelopes;
`fromDict` (`MineData.from_dict`) and `fillMissing` (the agent backfill) may
raise. -/
structure OrchEnv where
  callApiWithFallback : Str → APIResponse
  chunkRunner : List ChunkInfo → List ChunkResult
  transform : Str → FileInfo → TransformationResult
  enhance : MineData → FileInfo → TransformationResult
  fromDict : MineData → Except PyErr MineData
  strategy : Str
  fillMissing : Str → MineData → List ChunkInfo → Except PyErr MineData

/-- `ProcessingOrchestrator._process_without_chunks` (lines 749-806). -/
def processWithoutChunks (env : OrchEnv) (content : Str) (fi : FileInfo) (t : ℚ) :
    Except PyErr ProcessingResult :=
  let api := env.callApiWithFallback content
  if !api.success then
    .ok { file_info := fi, success := false, error_message := api.error_message,
          processing_time := some t }
  else
    let tr := env.transform api.content fi
    if !tr.success then
      .ok { file_info := fi, success := false, error_message := tr.error_message.getD [],
            processing_time := some t }
    else
      let enh := env.enhance (tr.transformed_data.getD []) fi
      let final := if enh.success then enh.transformed_data.getD []
        else tr.transformed_data.getD []
      (env.fromDict final).map (fun md =>
        { file_info := fi, success := true, mine_data := some md, processing_time := some t })

/-- `ProcessingOrchestrator._process_with_chunks` (lines 808-867).  The agent
backfill block is wrapped in its own `try/except` that falls back to the
unfilled data (lines 837-855), so only `MineData.from_dict` can raise out. -/
def processWithChunks (env : OrchEnv) (content : Str) (fi : FileInfo) (chunk_size : Nat)
    (t : ℚ) : Except PyErr ProcessingResult :=
  let chunks := create_chunks content fi.file_basename chunk_size
  let chunk_results := env.chunkRunner chunks
  let comb := combine_chunk_results chunk_results
  if !comb.success then
    .ok { file_info := fi, success := false, error_message := comb.error_message.getD [],
          processing_time := some t, chunk_results := chunk_results }
  else
    let enh := env.enhance (comb.transformed_data.getD []) fi
    let final := if enh.success then enh.transformed_data.getD []
      else comb.transformed_data.getD []
    let final2 :=
      if env.strategy = ("agents_per_field").toList ∨ env.strategy = ("hybrid").toList then
        match env.fillMissing content final chunks with
        | .ok d => d
        | .error _ => final
      else final
    (env.fromDict final2).map (fun md =>
      { file_info := fi, success := true, mine_data := some md,
        processing_time := some t, chunk_results := chunk_results })

/-- The body of the `try` of `process_content` (lines 734-738), including the
size-threshold branch choice (line 724-725). -/
def processContentBody (env : OrchEnv) (content : Str) (fi : FileInfo)
    (use_chunks : Option Bool) (max_chunk_size chunk_size : Nat) (t : ℚ) :
    Except PyErr ProcessingResult :=
  if use_chunks.getD (max_chunk_size < content.length) then
    processWithChunks env content fi chunk_size t
  else
    processWithoutChunks env content fi t

/-- `ProcessingOrchestrator.process_content` (lines 708-747): any exception
escaping the body is converted at the top into a failed result carrying
`Verarbeitung fehlgeschlagen: <error>` and the elapsed time — and no chunk
results (the handler at lines 740-747 has no access to them). -/
def process_content (env : OrchEnv) (content : Str) (fi : FileInfo)
    (use_chunks : Option Bool) (max_chunk_size chunk_size : Nat) (t : ℚ) : ProcessingResult :=
  match processContentBody env content fi use_chunks max_chunk_size chunk_size t with
  | .ok r => r
  | .error e =>
    { file_info := fi, success := false,
      error_message := ("Verarbeitung fehlgeschlagen: ").toList ++ e,
      processing_time := some t }

/-- C6: when every chunk result is failed or empty, the combination fails
with an explicit error and no transformed data, and the chunked-path
orchestrator returns a failed result with no record. -/
theorem C6_all_failed_chunks_fail_document (env : OrchEnv) (content : Str)
    (fi : FileInfo) (chunk_size : Nat) (t : ℚ)
    (hall : ∀ r ∈ env.chunkRunner (create_chunks content fi.file_basename chunk_size),
      ¬ (r.success = true ∧ r.extracted_data ≠ [])) :
    (combine_chunk_results
        (env.chunkRunner (create_chunks content fi.file_basename chunk_size))).success
      = false ∧
    (combine_chunk_results
        (env.chunkRunner (create_chunks content fi.file_basename chunk_size))).error_message
      = some (("Keine erfolgreichen Chunk-Ergebnisse zum Kombinieren").toList) ∧
    (combine_chunk_results
        (env.chunkRunner (create_chunks content fi.file_basename chunk_size))).transformed_data
      = none ∧
    (∃ pr, processWithChunks env content fi chunk_size t = .ok pr ∧
      pr.success = false ∧ pr.mine_data = none ∧ pr.error_message ≠ [] ∧
      pr.chunk_results = env.chunkRunner (create_chunks content fi.file_basename chunk_size)) := by
  have hfilter : (env.chunkRunner (create_chunks content fi.file_basename chunk_size)).filter
      chunkOk = [] := by
    rw [List.filter_eq_nil_iff]
    intro r hr
    have := hall r hr
    unfold chunkOk
    simp only [Bool.and_eq_true, Bool.not_eq_true', List.isEmpty_iff]
    intro hcontra
    exact this ⟨hcontra.1, by
      intro hnil
      rw [hnil] at hcontra
      simp at hcontra⟩
  have hcomb : combine_chunk_results
      (env.chunkRunner (create_chunks content fi.file_basename chunk_size)) =
      { success := false,
        error_message := some (("Keine erfolgreichen Chunk-Ergebnisse zum Kombinieren").toList) } := by
    unfold combine_chunk_results
    rw [hfilter]
    rfl
  refine ⟨by rw [hcomb], by rw [hcomb], by rw [hcomb], ?_⟩
  refine ⟨{ file_info := fi
            success := false
            error_message := ("Keine erfolgreichen Chunk-Ergebnisse zum Kombinieren").toList
            processing_time := some t
            chunk_results := env.chunkRunner (create_chunks content fi.file_basename chunk_size) },
    ?_, rfl, rfl, by simp, rfl⟩
  unfold processWithChunks
  simp only [hcomb]
  rfl

/-- C9 amended: every exception escaping the processing body is caught at the
top of `process_content` and converted into a failed result that carries the
error text and the elapsed time — the caller never sees an exception — but,
contrary to the claim, the failed result does NOT carry the chunk results
already produced (the top-level handler has no access to them; only the
combiner's own failure return attaches them).  Here `MineData.from_dict`
raising on the chunked path stands for the escaping exception. -/
theorem C9_exception_caught_without_chunk_results_amended (env : OrchEnv) (content : Str)
    (fi : FileInfo) (chunk_size max_chunk_size : Nat) (t : ℚ) (e : PyErr)
    (hthrow : ∀ m, env.fromDict m = .error e)
    (hcomb : (combine_chunk_results
      (env.chunkRunner (create_chunks content fi.file_basename chunk_size))).success = true) :
    process_content env content fi (some true) max_chunk_size chunk_size t =
      { file_info := fi, success := false, mine_data := none,
        error_message := ("Verarbeitung fehlgeschlagen: ").toList ++ e,
        processing_time := some t, chunk_results := [] } := by
  have hbody : processContentBody env content fi (some true) max_chunk_size chunk_size t
      = .error e := by
    unfold processContentBody
    simp only [Option.getD_some, if_true]
    unfold processWithChunks
    rw [if_neg (by simp [hcomb])]
    split
    · simp only [hthrow]
      rfl
    · simp only [hthrow]
      rfl
  unfold process_content
  rw [hbody]

def c9Fi : FileInfo := { file_basename := ("f").toList }

/-- A concrete environment whose single chunk extracts data successfully and
whose `from_dict` raises. -/
def c9Env : OrchEnv :=
  { callApiWithFallback := fun _ => { success := true },
    chunkRunner := fun _ =>
      [⟨("CHUNK-1").toList, [], true, [((("k").toList, ("v").toList))], [], none, 0⟩],
    transform := fun _ _ => { success := true, transformed_data := some [] },
    enhance := fun m _ => { success := true, transformed_data := some m },
    fromDict := fun _ => .error (("boom").toList),
    strategy := ("direct").toList,
    fillMissing := fun _ m _ => .ok m }

/-- C9 counterexample: in `c9Env` one successful chunk result was produced,
yet the failed result of `process_content` carries no chunk results — against
the claim that the failed result "also carries whatever ChunkResults had
already been produced". -/
theorem C9_top_level_failure_drops_chunk_results_counterexample :
    (process_content c9Env (("doc").toList) c9Fi (some true) 0 100 0).chunk_results = [] ∧
    (process_content c9Env (("doc").toList) c9Fi (some true) 0 100 0).success = false ∧
    c9Env.chunkRunner (create_chunks (("doc").toList) c9Fi.file_basename 100) ≠ [] := by
  refine ⟨by with_unfolding_all rfl, by with_unfolding_all rfl, by with_unfolding_all decide⟩

/-- C9 witness: the amended theorem in the concrete environment `c9Env`. -/
theorem C9_exception_caught_without_chunk_results_amended_witness :
    process_content c9Env (("doc").toList) c9Fi (some true) 0 100 0 =
      { file_info := c9Fi, success := false, mine_data := none,
        error_message := ("Verarbeitung fehlgeschlagen: ").toList ++ ("boom").toList,
        processing_time := some 0, chunk_results := [] } :=
  C9_exception_caught_without_chunk_results_amended c9Env (("doc").toList) c9Fi 100 0 0
    (("boom").toList) (fun _ => rfl) (by with_unfolding_all rfl)

def c6Env : OrchEnv :=
  { c9Env with
    chunkRunner := fun _ =>
      [⟨("CHUNK-1").toList, [], false, [], ("err").toList, none, 0⟩] }

/-- C6 witness: the theorem in a concrete environment whose single chunk
result failed. -/
theorem C6_all_failed_chunks_fail_document_witness :
    (combine_chunk_results
        (c6Env.chunkRunner (create_chunks (("doc").toList) c9Fi.file_basename 100))).success
      = false ∧
    (combine_chunk_results
        (c6Env.chunkRunner (create_chunks (("doc").toList) c9Fi.file_basename 100))).error_message
      = some (("Keine erfolgreichen Chunk-Ergebnisse zum Kombinieren").toList) ∧
    (combine_chunk_results
        (c6Env.chunkRunner (create_chunks (("doc").toList) c9Fi.file_basename 100))).transformed_data
      = none ∧
    (∃ pr, processWithChunks c6Env (("doc").toList) c9Fi 100 0 = .ok pr ∧
      pr.success = false ∧ pr.mine_data = none ∧ pr.error_message ≠ [] ∧
      pr.chunk_results = c6Env.chunkRunner (create_chunks (("doc").toList) c9Fi.file_basename 100)) :=
  C6_all_failed_chunks_fail_document c6Env (("doc").toList) c9Fi 100 0
    (by with_unfolding_all decide)

/-! ### Sequential chunk execution and the abort flag
(`process_chunks_async`, lines 187-235; `_process_single_chunk`,
lines 237-368)

The abort flag is a mutable attribute read at discrete points: at the top
of each loop iteration and once inside `_process_single_chunk` before the
API call.  We model the flag as a schedule `sched : Nat → Bool` giving its
value at the n-th read; iteration i reads at observations 2i (outer) and
2i+1 (inner).  External collaborators (API client, content analyzer, table
parser, JSON decoding) are supplied through `ChunkEnv`; the second
component of each result is the list of payloads sent to the API client,
so "no further API call" is a statement about that trace. -/

structure ChunkEnv where
  langHint : Str → Str
  tableHint : Str → Str
  api1 : Str → APIResponse
  extractJson : Str → Option Str
  jsonLoads : Str → Option RecMap
  useCascade : Bool
  apiCascade : Str → APIResponse
  elapsed : ℚ

/-- The payload sent for a chunk (lines 260-279):
`f"[language_hint=\x7blang_hint\x7d]\x7btable_hint\x7d\n"` prepended to the chunk text. -/
def chunkPayload (env : ChunkEnv) (c : ChunkInfo) : Str :=
  ("[language_hint=").toList ++ env.langHint c.chunk_text ++ ("]").toList
    ++ env.tableHint c.chunk_text ++ ("\x0A").toList ++ c.chunk_text

/-- The body of `_process_single_chunk` after the abort check
(lines 260-368): first API call, JSON extraction, optional OpenRouter
model-cascade retry, else a failure result.  Second component: the API
payloads issued. -/
def executeChunk (env : ChunkEnv) (c : ChunkInfo) : ChunkResult × List Str :=
  let payload := chunkPayload env c
  let api := env.api1 payload
  if !api.success then
    ({ chunk_id := c.chunk_id, chunk_description := c.chunk_description, success := false,
       error_message := api.error_message, processing_time := some env.elapsed }, [payload])
  else
    let first : Option RecMap :=
      match env.extractJson api.content with
      | some js => env.jsonLoads js
      | none => none
    match first with
    | some d =>
      ({ chunk_id := c.chunk_id, chunk_description := c.chunk_description, success := true,
         extracted_data := d, processing_time := some env.elapsed }, [payload])
    | none =>
      let fail : ChunkResult :=
        { chunk_id := c.chunk_id, chunk_description := c.chunk_description, success := false,
          error_message := ("Kein gültiges JSON in API-Response gefunden").toList,
          processing_time := some env.elapsed }
      if env.useCascade then
        let orr := env.apiCascade payload
        let second : Option RecMap :=
          if orr.success && !orr.content.isEmpty then
            match env.extractJson orr.content with
            | some js2 => env.jsonLoads js2
            | none => none
          else none
        match second with
        | some d2 =>
          ({ chunk_id := c.chunk_id, chunk_description := c.chunk_description, success := true,
             extracted_data := d2, processing_time := some env.elapsed }, [payload, payload])
        | none => (fail, [payload, payload])
      else (fail, [payload])

/-- The result returned by the inner abort check (lines 252-258). -/
def abortResult (c : ChunkInfo) : ChunkResult :=
  { chunk_id := c.chunk_id, chunk_description := c.chunk_description, success := false,
    error_message := ("Verarbeitung abgebrochen").toList }

/-- `_process_single_chunk` (lines 237-368): the flag is read once more (the
`t`-th observation) before any API call; when set, an abort-marker result is
returned and no API call is issued. -/
def processSingleChunk (env : ChunkEnv) (sched : Nat → Bool) (t : Nat) (c : ChunkInfo) :
    ChunkResult × List Str :=
  if sched t then (abortResult c, []) else executeChunk env c

/-- The loop of `process_chunks_async` (lines 204-235): read the flag at the
top of each iteration (break when set), run `_process_single_chunk` (which
reads it once more), append its result, continue. -/
def runChunksGo (env : ChunkEnv) (sched : Nat → Bool) :
    Nat → List ChunkInfo → List ChunkResult × List Str
  | _, [] => ([], [])
  | t, c :: rest =>
    if sched t then ([], [])
    else
      let pr := processSingleChunk env sched (t + 1) c
      let tail := runChunksGo env sched (t + 2) rest
      (pr.1 :: tail.1, pr.2 ++ tail.2)

/-- `process_chunks_async` (lines 187-235); observations start at 0. -/
def process_chunks_async (env : ChunkEnv) (sched : Nat → Bool)
    (chunks : List ChunkInfo) : List ChunkResult × List Str :=
  runChunksGo env sched 0 chunks

/-- Closed form of the loop under a flag that turns true at observation `K`
and stays true. -/
lemma runChunksGo_closed (env : ChunkEnv) (K : Nat) :
    ∀ (chunks : List ChunkInfo) (t : Nat),
      runChunksGo env (fun n => decide (K ≤ n)) t chunks =
        ((chunks.take (min ((K - t) / 2) chunks.length)).map
            (fun c => (executeChunk env c).1)
          ++ (if (K - t) % 2 = 1 then
                ((chunks.drop (min ((K - t) / 2) chunks.length)).take 1).map abortResult
              else []),
         (chunks.take (min ((K - t) / 2) chunks.length)).flatMap
            (fun c => (executeChunk env c).2))
  | [], t => by
    simp [runChunksGo]
  | c :: rest, t => by
    by_cases h0 : K ≤ t
    · have hd : K - t = 0 := Nat.sub_eq_zero_of_le h0
      simp [runChunksGo, h0, hd]
    · by_cases h1 : K ≤ t + 1
      · have hK : K = t + 1 := le_antisymm h1 (Nat.lt_of_not_le h0)
        have hd : K - t = 1 := by omega
        have htail := runChunksGo_closed env K rest (t + 2)
        have hd2 : K - (t + 2) = 0 := by omega
        rw [hd2] at htail
        have hs0 : (decide (K ≤ t)) = false := decide_eq_false h0
        have hs1 : (decide (K ≤ t + 1)) = true := decide_eq_true h1
        simp only [runChunksGo, processSingleChunk, hs0, hs1, if_false, if_true, hd]
        simp only [Nat.zero_div, Nat.min_eq_left (Nat.zero_le _), List.take_zero,
          Nat.zero_mod] at htail ⊢
        simp [htail]
      · have hm : K - t = (K - (t + 2)) + 2 := by omega
        have htail := runChunksGo_closed env K rest (t + 2)
        have hs0 : (decide (K ≤ t)) = false := decide_eq_false h0
        have hs1 : (decide (K ≤ t + 1)) = false := decide_eq_false h1
        simp only [runChunksGo, processSingleChunk, hs0, hs1, if_false]
        rw [hm, Nat.add_div_right _ (by norm_num), Nat.add_mod_right,
          List.length_cons, Nat.succ_min_succ, List.take_succ_cons,
          List.drop_succ_cons, htail]
        simp

/-- C10 amended: once the abort flag is observed true — the flag is read at
the top of each loop iteration and once more inside `_process_single_chunk`
before its API call (observation index `K` marks the first true read) — no
further chunk body runs and no further API call is issued: only the first
`min (K/2) |chunks|` chunks are executed, their results are returned in
production order, and the API-call trace consists exactly of their calls.
However, contrary to the claim, the returned list is not always the
already-collected list unchanged: when the flag first turns true at an INNER
check (K odd), a failed "Verarbeitung abgebrochen" marker result for the
interrupted chunk is appended before the loop stops. -/
theorem C10_abort_stops_api_calls_amended (env : ChunkEnv) (K : Nat)
    (chunks : List ChunkInfo) :
    process_chunks_async env (fun n => decide (K ≤ n)) chunks =
      ((chunks.take (min (K / 2) chunks.length)).map (fun c => (executeChunk env c).1)
        ++ (if K % 2 = 1 then
              ((chunks.drop (min (K / 2) chunks.length)).take 1).map abortResult
            else []),
       (chunks.take (min (K / 2) chunks.length)).flatMap
          (fun c => (executeChunk env c).2)) := by
  have h := runChunksGo_closed env K chunks 0
  simpa [process_chunks_async] using h

def c10Chunk : ChunkInfo :=
  { chunk_id := ("CHUNK-1").toList, chunk_text := ("text").toList,
    file_basename := ("f").toList, chunk_description := ("Teil 1").toList,
    chunk_size := 4 }

def c10Env : ChunkEnv :=
  { langHint := fun _ => ("de").toList
    tableHint := fun _ => []
    api1 := fun _ => { success := false, error_message := ("down").toList }
    extractJson := fun _ => none
    jsonLoads := fun _ => none
    useCascade := false
    apiCascade := fun _ => { success := false }
    elapsed := 0 }

/-- C10 counterexample: the abort flag turns true at observation 1 (the inner
check of the first chunk): no API call was issued and no result had been
collected when the abort was observed, yet the loop does not return the
collected (empty) list unchanged — it returns an appended
"Verarbeitung abgebrochen" marker result. -/
theorem C10_abort_appends_marker_counterexample :
    (process_chunks_async c10Env (fun n => decide (1 ≤ n)) [c10Chunk]).2 = [] ∧
    (process_chunks_async c10Env (fun n => decide (1 ≤ n)) [c10Chunk]).1
      = [abortResult c10Chunk] ∧
    [abortResult c10Chunk] ≠ ([] : List ChunkResult) :=
  ⟨by with_unfolding_all rfl, by with_unfolding_all rfl, by simp⟩

end ME


